import Mathlib

set_option maxRecDepth 8000

/-!
Verification development for the SAP-Hackathon kit-allocation optimizer.

Shallow embedding of:
* `scripts/_utils/graph.py`  (`TimeExpandedGraph`, `Edge`, `Node`)
* `python_client/player/services/network_flow_strategy.py`
  (`NetworkFlowStrategy.build_network`, `solve_optimization`,
  `extract_immediate_decisions`)
* `python_client/player/services/solver.py`
  (`MinCostFlowSolver`, `GreedySolver`, `Solution`)

Machine floats are modelled by `ℚ`; Python `float('inf')` capacities by
`Option ℕ` with `none` standing for infinity; the OR-Tools
`SimpleMinCostFlow` backend (an external library, not part of the
repository) is modelled by the predicate `MCFBackendSpec`, which states
its documented contract: UNBALANCED when supplies do not cancel,
INFEASIBLE when no feasible flow exists, otherwise OPTIMAL with a
minimum-cost feasible flow.
-/

/-- The four kit classes (`player/models.py`, `KitType.ALL_TYPES`). -/
inductive KitType
  | FIRST
  | BUSINESS
  | PREMIUM_ECONOMY
  | ECONOMY
deriving DecidableEq

/-- `self.kit_types = ['FIRST', 'BUSINESS', 'PREMIUM_ECONOMY', 'ECONOMY']`
(`network_flow_strategy.py`, line 24), in iteration order. -/
def kitTypesList : List KitType :=
  [.FIRST, .BUSINESS, .PREMIUM_ECONOMY, .ECONOMY]

/-- Node identity in the time-expanded graph.  In `graph.py` a node id is
the string `f"{airport}_{time}_{kit_type}"`, or the singleton ids
`"source_<n>"` / `"sink_<n>"`; the encoding is injective, so we model it
by a structured sum.  Note there is NO node-kind (AVAILABLE/FROZEN)
component in the identity. -/
inductive NodeId
  | airport (ap : String) (time : Int) (kit : KitType)
  | source
  | sink
deriving DecidableEq

/-- `edge_type` strings used by `graph.py` and `solver.py`. -/
inductive EdgeType
  | initial_inventory
  | storage
  | flight
  | processing
  | demand
  | purchase
  | dummy
deriving DecidableEq

/-- Python capacities are ints or `float('inf')`; `none` is infinity. -/
abbrev Cap := Option Nat

/-- Addition of capacities (`inf + n = inf`). -/
def capAdd : Cap → Cap → Cap
  | some a, some b => some (a + b)
  | _, _ => none

/-- Truncated subtraction of capacities (`inf - n = inf`); the
`some a - none` case cannot arise in the solvers (flow pushed through a
node never exceeds its finite balance). -/
def capSub : Cap → Cap → Cap
  | none, _ => none
  | some a, some b => some (a - b)
  | some _, none => some 0

/-- Minimum of capacities. -/
def capMin : Cap → Cap → Cap
  | some a, some b => some (min a b)
  | some a, none => some a
  | none, some b => some b
  | none, none => none

/-- `c > 0` on capacities. -/
def capPos : Cap → Bool
  | some a => decide (0 < a)
  | none => true

/-- `≤` on capacities, as a boolean. -/
def capLeB : Cap → Cap → Bool
  | _, none => true
  | none, some _ => false
  | some a, some b => decide (a ≤ b)

/-- `≤` on capacities, as a proposition. -/
def capLE (a b : Cap) : Prop := capLeB a b = true

/-- `int(edge.capacity) if edge.capacity != float('inf') else 999999`
(`solver.py`, line 53). -/
def intCapacity : Cap → Nat
  | some n => n
  | none => 999999

/-- Python `int()` applied to a rational: truncation toward zero. -/
def pyTrunc (q : ℚ) : ℤ := if 0 ≤ q then ⌊q⌋ else -⌊-q⌋

/-- An edge of the time-expanded graph (`graph.py`, class `Edge`).
The `m...` fields model the entries of the `metadata` dict that the
rest of the program reads. -/
structure Edge where
  source : NodeId
  target : NodeId
  capacity : Cap
  cost : ℚ
  edgeType : EdgeType
  mFlightId : Option String := none
  mKit : Option KitType := none
  mOrderTime : Option Int := none
  mDeliveryTime : Option Int := none
deriving DecidableEq

/-- The time-expanded graph (`graph.py`, class `TimeExpandedGraph`).
`nodes` is the insertion-ordered key set of the Python `nodes` dict. -/
structure Graph where
  planning_horizon : ℕ
  nodes : List NodeId := []
  edges : List Edge := []
  source_node : Option NodeId := none
  sink_node : Option NodeId := none
deriving DecidableEq

/-- `_get_or_create_node`: dedup by identity, insertion at the end. -/
def getOrCreateNode (g : Graph) (n : NodeId) : Graph :=
  if n ∈ g.nodes then g else { g with nodes := g.nodes ++ [n] }

/-- `get_source`: lazily create the singleton source node. -/
def getSource (g : Graph) : Graph × NodeId :=
  match g.source_node with
  | some s => (g, s)
  | none =>
      ({ g with nodes := g.nodes ++ [NodeId.source],
                source_node := some NodeId.source }, NodeId.source)

/-- `get_sink`: lazily create the singleton sink node. -/
def getSink (g : Graph) : Graph × NodeId :=
  match g.sink_node with
  | some s => (g, s)
  | none =>
      ({ g with nodes := g.nodes ++ [NodeId.sink],
                sink_node := some NodeId.sink }, NodeId.sink)

/-- `add_initial_inventory_edge(airport, kit_type, quantity)`. -/
def add_initial_inventory_edge (g : Graph) (airport : String) (kit : KitType)
    (quantity : ℕ) : Graph :=
  let p := getSource g
  let g2 := getOrCreateNode p.1 (.airport airport 0 kit)
  { g2 with edges := g2.edges ++
      [{ source := p.2, target := .airport airport 0 kit,
         capacity := some quantity, cost := 0,
         edgeType := .initial_inventory, mKit := some kit }] }

/-- `add_storage_edge(airport, time, kit_type, capacity, storage_cost)`. -/
def add_storage_edge (g : Graph) (airport : String) (time : Int)
    (kit : KitType) (capacity : ℕ) (storage_cost : ℚ) : Graph :=
  if time ≥ (g.planning_horizon : Int) - 1 then g
  else
    let g1 := getOrCreateNode g (.airport airport time kit)
    let g2 := getOrCreateNode g1 (.airport airport (time + 1) kit)
    { g2 with edges := g2.edges ++
        [{ source := .airport airport time kit,
           target := .airport airport (time + 1) kit,
           capacity := some capacity, cost := storage_cost,
           edgeType := .storage, mKit := some kit }] }

/-- `add_flight_edge(flight_id, source_airport, dest_airport, dep_time,
arr_time, kit_type, capacity, cost)`. -/
def add_flight_edge (g : Graph) (flight_id : String)
    (source_airport dest_airport : String) (dep_time arr_time : Int)
    (kit : KitType) (capacity : ℕ) (cost : ℚ) : Graph :=
  if dep_time ≥ (g.planning_horizon : Int) ∨
     arr_time ≥ (g.planning_horizon : Int) then g
  else
    let g1 := getOrCreateNode g (.airport source_airport dep_time kit)
    let g2 := getOrCreateNode g1 (.airport dest_airport arr_time kit)
    { g2 with edges := g2.edges ++
        [{ source := .airport source_airport dep_time kit,
           target := .airport dest_airport arr_time kit,
           capacity := some capacity, cost := cost,
           edgeType := .flight,
           mFlightId := some flight_id, mKit := some kit }] }

/-- `add_processing_edge(airport, arrival_time, processing_time, kit_type)`. -/
def add_processing_edge (g : Graph) (airport : String) (arrival_time : Int)
    (processing_time : ℕ) (kit : KitType) : Graph :=
  let ready_time := arrival_time + (processing_time : Int)
  if ready_time ≥ (g.planning_horizon : Int) then g
  else
    let g1 := getOrCreateNode g (.airport airport arrival_time kit)
    let g2 := getOrCreateNode g1 (.airport airport ready_time kit)
    { g2 with edges := g2.edges ++
        [{ source := .airport airport arrival_time kit,
           target := .airport airport ready_time kit,
           capacity := none, cost := 0,
           edgeType := .processing, mKit := some kit }] }

/-- `add_demand_edge(flight_id, airport, dep_time, kit_type,
required_quantity, penalty_cost)`. -/
def add_demand_edge (g : Graph) (flight_id : String) (airport : String)
    (dep_time : Int) (kit : KitType) (required_quantity : ℕ)
    (penalty_cost : ℚ) : Graph :=
  let g1 := getOrCreateNode g (.airport airport dep_time kit)
  let p := getSink g1
  { p.1 with edges := p.1.edges ++
      [{ source := .airport airport dep_time kit, target := p.2,
         capacity := some required_quantity, cost := penalty_cost,
         edgeType := .demand,
         mFlightId := some flight_id, mKit := some kit }] }

/-- `add_purchase_edge(kit_type, order_time, delivery_time, quantity, cost)`.
The hub airport is the hard-coded string `'HUB1'`. -/
def add_purchase_edge (g : Graph) (kit : KitType)
    (order_time delivery_time : Int) (quantity : ℕ) (cost : ℚ) : Graph :=
  if delivery_time ≥ (g.planning_horizon : Int) then g
  else
    let p := getSource g
    let g2 := getOrCreateNode p.1 (.airport "HUB1" delivery_time kit)
    { g2 with edges := g2.edges ++
        [{ source := p.2, target := .airport "HUB1" delivery_time kit,
           capacity := some quantity, cost := cost,
           edgeType := .purchase, mKit := some kit,
           mOrderTime := some order_time,
           mDeliveryTime := some delivery_time }] }

/-- Association-list lookup with decidable keys (Python `dict.get(k)` /
`dict[k]`, first binding wins; our updates keep keys unique). -/
def alookup {κ β : Type} [DecidableEq κ] : List (κ × β) → κ → Option β
  | [], _ => none
  | p :: t, k => if p.1 = k then some p.2 else alookup t k

/-- Python `dict.get(k, d)`. -/
def agetD {κ β : Type} [DecidableEq κ] (l : List (κ × β)) (k : κ) (d : β) : β :=
  (alookup l k).getD d

/-- Python dict assignment `l[k] = v`: replace the first binding in
place, else append. -/
def aset {κ β : Type} [DecidableEq κ] : List (κ × β) → κ → β → List (κ × β)
  | [], k, v => [(k, v)]
  | p :: t, k, v => if p.1 = k then (k, v) :: t else p :: aset t k v

/-- `player/models.py`, class `Airport`: the fields `build_network`
reads.  `loading_cost`, `processing_cost`, `processing_time` are dicts
(possibly empty), read with defaults 5 / 10 / 2. -/
structure Airport where
  capacity_first : ℕ
  capacity_business : ℕ
  capacity_premium : ℕ
  capacity_economy : ℕ
  loading_cost : List (KitType × ℚ) := []
  processing_cost : List (KitType × ℚ) := []
  processing_time : List (KitType × ℕ) := []

/-- `player/models.py`, class `AircraftType`: per-kit capacities. -/
structure AircraftType where
  first_capacity : ℕ
  business_capacity : ℕ
  premium_capacity : ℕ
  economy_capacity : ℕ

/-- One element of the `upcoming_flights` list consumed by
`build_network` (a `flights_info` record with the keys the builder
reads).  `get_flights_in_horizon` itself reads a `'departure_time'` key
that `process_flight_updates` never writes and calls a `_parse_hour`
helper that does not exist, so on the shipped code path it yields `[]`;
this parameter stands for the list of flights the builder considers. -/
structure FlightInfo where
  id : String
  source : String
  dest : String
  aircraft : String
  departure_hour : Int
  arrival_hour : Int
  distance : ℚ
  fuel_cost_per_km : ℚ
  passengers : KitType → ℕ

/-- The `if kit_type == 'FIRST': capacity = airport.capacity_first` …
chain of the storage-edge loop. -/
def storageCapacityFor (a : Airport) : KitType → ℕ
  | .FIRST => a.capacity_first
  | .BUSINESS => a.capacity_business
  | .PREMIUM_ECONOMY => a.capacity_premium
  | .ECONOMY => a.capacity_economy

/-- The aircraft-capacity if-chain of the flight-edge loop. -/
def aircraftCapacityFor (ac : AircraftType) : KitType → ℕ
  | .FIRST => ac.first_capacity
  | .BUSINESS => ac.business_capacity
  | .PREMIUM_ECONOMY => ac.premium_capacity
  | .ECONOMY => ac.economy_capacity

/-- Hard-coded kit weights of the flight-edge loop
(0.5 / 0.4 / 0.3 / 0.2). -/
def kitWeight : KitType → ℚ
  | .FIRST => mkRat 1 2
  | .BUSINESS => mkRat 2 5
  | .PREMIUM_ECONOMY => mkRat 3 10
  | .ECONOMY => mkRat 1 5

/-- Hard-coded kit costs of the demand-edge loop (80 / 40 / 20 / 10). -/
def demandKitCost : KitType → ℚ
  | .FIRST => 80
  | .BUSINESS => 40
  | .PREMIUM_ECONOMY => 20
  | .ECONOMY => 10

/-- Hard-coded purchase lead times (48 / 24 / 12 / 6 hours). -/
def purchaseLeadTime : KitType → ℕ
  | .FIRST => 48
  | .BUSINESS => 24
  | .PREMIUM_ECONOMY => 12
  | .ECONOMY => 6

/-- Hard-coded unit purchase costs (80 / 40 / 20 / 10). -/
def purchaseCost : KitType → ℚ
  | .FIRST => 80
  | .BUSINESS => 40
  | .PREMIUM_ECONOMY => 20
  | .ECONOMY => 10

/-- Step A of `build_network`: initial-inventory edges for every
`(airport, kit)` pair with positive stock. -/
def stepInventory (g : Graph)
    (inventory : List ((String × KitType) × ℕ)) : Graph :=
  inventory.foldl
    (fun g p =>
      if 0 < p.2 then add_initial_inventory_edge g p.1.1 p.1.2 p.2 else g) g

/-- Step B of `build_network`: storage edges for every
`t ∈ range(horizon - 1)`, airport and kit type. -/
def stepStorage (g : Graph) (airports : List (String × Airport)) : Graph :=
  (List.range (g.planning_horizon - 1)).foldl
    (fun g (t : ℕ) =>
      airports.foldl
        (fun g p =>
          kitTypesList.foldl
            (fun g kit =>
              add_storage_edge g p.1 (t : Int) kit
                (storageCapacityFor p.2 kit) 0) g) g) g

/-- Body of the flight-edge loop for one `(flight, kit_type)` pair:
resolve airports and aircraft (skipping the flight on failure), compute
cost and capacity, then add the flight edge and the processing edge. -/
def flightKitStep (g : Graph) (airports : List (String × Airport))
    (aircraft_map : List (String × AircraftType)) (cur : Int)
    (f : FlightInfo) (kit : KitType) : Graph :=
  let dep_time := f.departure_hour - cur
  let arr_time := f.arrival_hour - cur
  match alookup airports f.source, alookup airports f.dest with
  | some source_airport, some dest_airport =>
      let weight := kitWeight kit
      let loading_cost := agetD source_airport.loading_cost kit 5
      let processing_cost := agetD dest_airport.processing_cost kit 10
      let fuel_cost := f.distance * f.fuel_cost_per_km * weight
      let total_cost := loading_cost + fuel_cost + processing_cost
      match alookup aircraft_map f.aircraft with
      | some aircraft =>
          let capacity := aircraftCapacityFor aircraft kit
          let g1 := add_flight_edge g f.id f.source f.dest dep_time arr_time
            kit capacity total_cost
          let processing_time := agetD dest_airport.processing_time kit 2
          add_processing_edge g1 f.dest arr_time processing_time kit
      | none => g
  | _, _ => g

/-- Step C of `build_network`: flight and processing edges; a flight
that already departed (`dep_time < 0`) is skipped entirely. -/
def stepFlights (g : Graph) (airports : List (String × Airport))
    (aircraft_map : List (String × AircraftType)) (cur : Int)
    (flights : List FlightInfo) : Graph :=
  flights.foldl
    (fun g f =>
      if f.departure_hour - cur < 0 then g
      else
        kitTypesList.foldl
          (fun g kit => flightKitStep g airports aircraft_map cur f kit) g) g

/-- Step D of `build_network`: demand edges with penalty
`distance * kit_cost * 10`, only for positive passenger requirements. -/
def stepDemand (g : Graph) (cur : Int) (flights : List FlightInfo) : Graph :=
  flights.foldl
    (fun g f =>
      let dep_time := f.departure_hour - cur
      if dep_time < 0 then g
      else
        kitTypesList.foldl
          (fun g kit =>
            let required := f.passengers kit
            if 0 < required then
              add_demand_edge g f.id f.source dep_time kit required
                (f.distance * demandKitCost kit * 10)
            else g) g) g

/-- Step E of `build_network`: one purchase edge per kit type whose
lead time is below the horizon (order now, arrive at `lead_time`,
maximum order size 1000). -/
def stepPurchase (g : Graph) : Graph :=
  kitTypesList.foldl
    (fun g kit =>
      if purchaseLeadTime kit < g.planning_horizon then
        add_purchase_edge g kit 0 (purchaseLeadTime kit) 1000
          (purchaseCost kit)
      else g) g

/-- `NetworkFlowStrategy.build_network`, steps A–E in order. -/
def build_network (airports : List (String × Airport))
    (aircraft_map : List (String × AircraftType))
    (upcoming_flights : List FlightInfo)
    (inventory : List ((String × KitType) × ℕ))
    (planning_horizon : ℕ) (current_day current_hour : Int) : Graph :=
  let current_absolute_hour := current_day * 24 + current_hour
  stepPurchase
    (stepDemand
      (stepFlights
        (stepStorage (stepInventory { planning_horizon := planning_horizon }
          inventory) airports)
        airports aircraft_map current_absolute_hour upcoming_flights)
      current_absolute_hour upcoming_flights)

/-- Solution statuses (`solver.py`: `'OPTIMAL'`, `'FEASIBLE'`,
`'INFEASIBLE'`, `'UNBALANCED'`, `'ERROR'`, `'GREEDY'`). -/
inductive SolStatus
  | OPTIMAL
  | FEASIBLE
  | INFEASIBLE
  | UNBALANCED
  | ERROR
  | GREEDY
deriving DecidableEq

/-- `solver.py`, class `Solution`.  Defaults mirror `__init__`. -/
structure Solution where
  status : SolStatus
  total_cost : ℚ := 0
  kit_loads : List (String × List (KitType × Cap)) := []
  purchases : List (KitType × Cap) := []
  flow : List (Edge × Cap) := []

/-- An arc as handed to the OR-Tools backend
(`add_arc_with_capacity_and_unit_cost`): integer capacity and cost. -/
structure Arc where
  src : NodeId
  dst : NodeId
  cap : ℕ
  cost : ℤ
deriving DecidableEq

/-- `_add_edges_to_solver`, per edge: capacity `int(edge.capacity)` with
`float('inf')` replaced by 999999, cost `int(edge.cost * 1000)`
(Python `int()` truncates toward zero). -/
def toArc (e : Edge) : Arc :=
  { src := e.source, dst := e.target,
    cap := intCapacity e.capacity, cost := pyTrunc (e.cost * 1000) }

/-- The arc list handed to the backend, in `graph.edges` order
(also the retrieval order of `edge_list`). -/
def mcfArcs (g : Graph) : List Arc := g.edges.map toArc

/-- `_set_supplies`: total capacity of the demand edges. -/
def total_demand_of (edges : List Edge) : Cap :=
  (edges.filter (fun e => decide (e.edgeType = EdgeType.demand))).foldl
    (fun a e => capAdd a e.capacity) (some 0)

/-- `_set_supplies`: total capacity of the initial-inventory and
purchase edges. -/
def total_supply_of (edges : List Edge) : Cap :=
  (edges.filter (fun e =>
      decide (e.edgeType = EdgeType.initial_inventory ∨
              e.edgeType = EdgeType.purchase))).foldl
    (fun a e => capAdd a e.capacity) (some 0)

/-- `_set_supplies`: `if total_demand == 0 and total_supply > 0:
total_demand = total_supply`. -/
def demand_adjusted (edges : List Edge) : Cap :=
  let d := total_demand_of edges
  let s := total_supply_of edges
  if d = some 0 ∧ capPos s = true then s else d

/-- The dummy Source→Sink edge appended by `solve` when the graph has
no demand edges (capacity 999999, cost 0). -/
def dummyEdge : Edge :=
  { source := .source, target := .sink, capacity := some 999999,
    cost := 0, edgeType := .dummy }

/-- `any(e.edge_type == 'demand' for e in self.graph.edges)`. -/
def hasDemandEdge (g : Graph) : Bool :=
  g.edges.any (fun e => decide (e.edgeType = EdgeType.demand))

/-- The graph actually handed to the backend by `solve`:
`_build_node_mapping` forces source and sink to exist, then the dummy
edge is appended only when the graph has no demand edges. -/
def solverPrepare (g : Graph) : Graph :=
  let g1 := (getSource g).1
  let g2 := (getSink g1).1
  if hasDemandEdge g2 then g2
  else { g2 with edges := g2.edges ++ [dummyEdge] }

/-- Flow into node `n` over a list of (arc, flow) pairs. -/
def inflowN : List (Arc × ℕ) → NodeId → ℕ
  | [], _ => 0
  | p :: t, n => (if p.1.dst = n then p.2 else 0) + inflowN t n

/-- Flow out of node `n` over a list of (arc, flow) pairs. -/
def outflowN : List (Arc × ℕ) → NodeId → ℕ
  | [], _ => 0
  | p :: t, n => (if p.1.src = n then p.2 else 0) + outflowN t n

/-- Integer cost of a flow assignment. -/
def flowCost : List (Arc × ℕ) → ℤ
  | [] => 0
  | p :: t => p.1.cost * (p.2 : ℤ) + flowCost t

/-- Feasibility of a flow assignment for the min-cost-flow instance with
arc list `arcs`, supply `S` at Source and demand `D` at Sink (the
supplies `_set_supplies` installs). -/
def Feasible (arcs : List Arc) (S D : ℕ) (f : List ℕ) : Prop :=
  f.length = arcs.length ∧
  (∀ p ∈ arcs.zip f, p.2 ≤ p.1.cap) ∧
  (∀ n : NodeId, n ≠ .source → n ≠ .sink →
    inflowN (arcs.zip f) n = outflowN (arcs.zip f) n) ∧
  outflowN (arcs.zip f) .source = inflowN (arcs.zip f) .source + S ∧
  inflowN (arcs.zip f) .sink = outflowN (arcs.zip f) .sink + D

/-- What `smcf.solve()` reports: a status, the per-arc flows
(`smcf.flow(i)`) and the optimal cost (`smcf.optimal_cost()`). -/
structure BackendResult where
  bstatus : SolStatus
  flows : List ℕ
  optCost : ℤ

/-- Modelled from the spec: the documented contract of the OR-Tools
`SimpleMinCostFlow` backend, which is an external library and not part
of the repository.  It reports UNBALANCED when the installed supplies
do not cancel, INFEASIBLE when they do but no feasible flow exists, and
otherwise OPTIMAL together with a minimum-cost feasible flow and its
cost. -/
def MCFBackendSpec (arcs : List Arc) (S D : ℕ) (res : BackendResult) : Prop :=
  (S ≠ D → res.bstatus = .UNBALANCED) ∧
  (S = D → (¬ ∃ f, Feasible arcs S D f) → res.bstatus = .INFEASIBLE) ∧
  (S = D → ∀ f, Feasible arcs S D f →
    res.bstatus = .OPTIMAL ∧ Feasible arcs S D res.flows ∧
    (∀ f2, Feasible arcs S D f2 →
      flowCost (arcs.zip res.flows) ≤ flowCost (arcs.zip f2)) ∧
    res.optCost = flowCost (arcs.zip res.flows))

/-- The positive-flow list `solution.flow` built by the extraction loop
of `solve`. -/
def flowListOf (pairs : List (Edge × ℕ)) : List (Edge × Cap) :=
  pairs.foldl (fun fl p => if 0 < p.2 then fl ++ [(p.1, some p.2)] else fl) []

/-- The `solution.kit_loads` dict built by the extraction loop of
`solve` (`metadata['flight_id']` / `metadata['kit']` are always set on
flight edges built by the graph, so the lookups cannot fail there). -/
def kitLoadsOf (pairs : List (Edge × ℕ)) :
    List (String × List (KitType × Cap)) :=
  pairs.foldl
    (fun loads p =>
      if 0 < p.2 ∧ p.1.edgeType = .flight then
        match p.1.mFlightId, p.1.mKit with
        | some fid, some k =>
            aset loads fid (aset ((alookup loads fid).getD []) k (some p.2))
        | _, _ => loads
      else loads) []

/-- The `solution.purchases` dict built by the extraction loop of
`solve`. -/
def purchasesOf (pairs : List (Edge × ℕ)) : List (KitType × Cap) :=
  pairs.foldl
    (fun purch p =>
      if 0 < p.2 ∧ p.1.edgeType = .purchase then
        match p.1.mKit with
        | some k =>
            aset purch k (capAdd ((alookup purch k).getD (some 0)) (some p.2))
        | none => purch
      else purch) []

/-- `MinCostFlowSolver.solve`, with the backend's answer passed in as
`res`.  Returns `.error` where the Python would raise an uncaught
exception (`int(float('inf'))` in `_set_supplies`). -/
def mcfSolve (g : Graph) (res : BackendResult) : Except String Solution :=
  let gp := solverPrepare g
  match total_supply_of gp.edges, demand_adjusted gp.edges with
  | some _, some _ =>
      match res.bstatus with
      | .OPTIMAL =>
          let pairs := gp.edges.zip res.flows
          .ok { status := .OPTIMAL,
                total_cost := (res.optCost : ℚ) / 1000,
                kit_loads := kitLoadsOf pairs,
                purchases := purchasesOf pairs,
                flow := flowListOf pairs }
      | .FEASIBLE =>
          let pairs := gp.edges.zip res.flows
          .ok { status := .FEASIBLE,
                total_cost := (res.optCost : ℚ) / 1000,
                kit_loads := kitLoadsOf pairs,
                purchases := purchasesOf pairs,
                flow := flowListOf pairs }
      | .INFEASIBLE => .ok { status := .INFEASIBLE }
      | .UNBALANCED => .ok { status := .UNBALANCED }
      | _ => .ok { status := .ERROR }
  | _, _ => .error "OverflowError"

/-- `ℚ` value of a flow (infinite flow cannot arise from graphs whose
source-outgoing edges have finite capacity, which the builder
guarantees). -/
def capToQ : Cap → ℚ
  | some n => (n : ℚ)
  | none => 0

/-- `int(round(flow_value))` on an integral flow. -/
def quantityOf : Cap → ℕ
  | some n => n
  | none => 0

/-- Sort key of the greedy solver:
`e.cost if e.capacity > 0 else float('inf')` (`none` = infinity). -/
def greedySortKey (e : Edge) : Option ℚ :=
  if capPos e.capacity = true then some e.cost else none

/-- Total preorder on edges induced by the greedy sort key. -/
def keyLe (a b : Edge) : Bool :=
  match greedySortKey a, greedySortKey b with
  | _, none => true
  | none, some _ => false
  | some x, some y => decide (x ≤ y)

/-- Stable insertion of `x` after all entries whose key is `≤` its own;
`sortEdgesByCost` below is therefore a stable sort, like Python
`sorted`. -/
def insertSorted (x : Edge) : List Edge → List Edge
  | [] => [x]
  | y :: t => if keyLe y x then y :: insertSorted x t else x :: y :: t

/-- `sorted(self.graph.edges, key=...)` (stable). -/
def sortEdgesByCost (l : List Edge) : List Edge :=
  l.foldl (fun acc x => insertSorted x acc) []

/-- Pointwise update of the `node_supply` dict. -/
def updSupply (s : NodeId → Cap) (n : NodeId) (v : Cap) : NodeId → Cap :=
  fun m => if m = n then v else s m

/-- One iteration of the greedy flow-assignment loop. -/
def greedyStep (st : (NodeId → Cap) × Solution) (e : Edge) :
    (NodeId → Cap) × Solution :=
  let supply := st.1
  let sol := st.2
  let available := supply e.source
  let can_flow := capMin e.capacity available
  if capPos can_flow = true then
    let supply1 := updSupply supply e.source (capSub (supply e.source) can_flow)
    let supply2 := updSupply supply1 e.target (capAdd (supply1 e.target) can_flow)
    let sol1 :=
      { sol with
        flow := sol.flow ++ [(e, can_flow)],
        total_cost := sol.total_cost + e.cost * capToQ can_flow }
    let sol2 :=
      if e.edgeType = .flight then
        match e.mFlightId, e.mKit with
        | some fid, some k =>
            let inner := aset ((alookup sol1.kit_loads fid).getD []) k can_flow
            { sol1 with kit_loads := aset sol1.kit_loads fid inner }
        | _, _ => sol1
      else if e.edgeType = .purchase then
        match e.mKit with
        | some k =>
            let v := capAdd ((alookup sol1.purchases k).getD (some 0)) can_flow
            { sol1 with purchases := aset sol1.purchases k v }
        | none => sol1
      else sol1
    (supply2, sol2)
  else (supply, sol)

/-- `GreedySolver.solve`: zero balances everywhere, source seeded with
the total capacity of its outgoing edges, then a single greedy pass over
the edges in ascending cost order. -/
def greedySolve (g : Graph) : Solution :=
  let supply0 : NodeId → Cap := fun _ => some 0
  let supply1 :=
    match g.source_node with
    | none => supply0
    | some sid =>
        updSupply supply0 sid
          (g.edges.foldl
            (fun a e => if e.source = sid then capAdd a e.capacity else a)
            (some 0))
  ((sortEdgesByCost g.edges).foldl greedyStep
    (supply1, { status := .GREEDY })).2

/-- Outcome of the `try` around the exact attempt in
`solve_optimization`: either the backend answered, or an `ImportError`
was raised. -/
inductive ExactOutcome
  | importError
  | backend (res : BackendResult)

/-- `NetworkFlowStrategy.solve_optimization`: the greedy solver is used
only on `ImportError`; every solution the exact solver returns —
whatever its status — is passed through unchanged, and any other
exception propagates. -/
def solve_optimization (g : Graph) (o : ExactOutcome) :
    Except String Solution :=
  match o with
  | .importError => .ok (greedySolve g)
  | .backend res => mcfSolve g res

/-- `NetworkFlowStrategy.extract_immediate_decisions`.  `flights_info`
maps a flight id to its recorded `'departure_hour'` (if any); the
`current_hour` parameter of the Python method is ignored in favour of
`self.current_day * 24 + self.current_hour`, which the caller sets to
the same cycle's day and hour. -/
def extract_immediate_decisions (flights_info : List (String × Option Int))
    (current_day current_hour : Int) (sol : Solution) :
    List (String × List (KitType × Cap)) × List (KitType × ℕ) :=
  let current_absolute_hour := current_day * 24 + current_hour
  let loads := sol.kit_loads.foldl
    (fun loads p =>
      match alookup flights_info p.1 with
      | some dep =>
          if dep = some current_absolute_hour then aset loads p.1 p.2
          else loads
      | none => loads) []
  let purchases := sol.flow.foldl
    (fun purch p =>
      if p.1.edgeType = .purchase then
        match p.1.mKit with
        | some k =>
            let quantity := quantityOf p.2
            if 0 < quantity then aset purch k (agetD purch k 0 + quantity)
            else purch
        | none => purch
      else purch) []
  (loads, purchases)

/-! ### Effect lemmas for the graph operations -/

/-- Default source id: the id `get_source` returns. -/
def sourceIdD (g : Graph) : NodeId := g.source_node.getD .source

/-- Default sink id: the id `get_sink` returns. -/
def sinkIdD (g : Graph) : NodeId := g.sink_node.getD .sink

@[simp] theorem getOrCreateNode_edges (g : Graph) (n : NodeId) :
    (getOrCreateNode g n).edges = g.edges := by
  unfold getOrCreateNode; split <;> rfl

@[simp] theorem getOrCreateNode_ph (g : Graph) (n : NodeId) :
    (getOrCreateNode g n).planning_horizon = g.planning_horizon := by
  unfold getOrCreateNode; split <;> rfl

@[simp] theorem getOrCreateNode_sn (g : Graph) (n : NodeId) :
    (getOrCreateNode g n).source_node = g.source_node := by
  unfold getOrCreateNode; split <;> rfl

@[simp] theorem getOrCreateNode_kn (g : Graph) (n : NodeId) :
    (getOrCreateNode g n).sink_node = g.sink_node := by
  unfold getOrCreateNode; split <;> rfl

@[simp] theorem getSource_snd (g : Graph) : (getSource g).2 = sourceIdD g := by
  cases h : g.source_node <;> simp [getSource, sourceIdD, h]

@[simp] theorem getSource_fst_edges (g : Graph) :
    (getSource g).1.edges = g.edges := by
  cases h : g.source_node <;> simp [getSource, h]

@[simp] theorem getSource_fst_ph (g : Graph) :
    (getSource g).1.planning_horizon = g.planning_horizon := by
  cases h : g.source_node <;> simp [getSource, h]

@[simp] theorem getSource_fst_sn (g : Graph) :
    (getSource g).1.source_node = some (sourceIdD g) := by
  cases h : g.source_node <;> simp [getSource, sourceIdD, h]

@[simp] theorem getSource_fst_kn (g : Graph) :
    (getSource g).1.sink_node = g.sink_node := by
  cases h : g.source_node <;> simp [getSource, h]

@[simp] theorem getSink_snd (g : Graph) : (getSink g).2 = sinkIdD g := by
  cases h : g.sink_node <;> simp [getSink, sinkIdD, h]

@[simp] theorem getSink_fst_edges (g : Graph) :
    (getSink g).1.edges = g.edges := by
  cases h : g.sink_node <;> simp [getSink, h]

@[simp] theorem getSink_fst_ph (g : Graph) :
    (getSink g).1.planning_horizon = g.planning_horizon := by
  cases h : g.sink_node <;> simp [getSink, h]

@[simp] theorem getSink_fst_kn (g : Graph) :
    (getSink g).1.sink_node = some (sinkIdD g) := by
  cases h : g.sink_node <;> simp [getSink, sinkIdD, h]

@[simp] theorem getSink_fst_sn (g : Graph) :
    (getSink g).1.source_node = g.source_node := by
  cases h : g.sink_node <;> simp [getSink, h]

@[simp] theorem sourceIdD_goc (g : Graph) (n : NodeId) :
    sourceIdD (getOrCreateNode g n) = sourceIdD g := by
  unfold sourceIdD; rw [getOrCreateNode_sn]

@[simp] theorem sinkIdD_goc (g : Graph) (n : NodeId) :
    sinkIdD (getOrCreateNode g n) = sinkIdD g := by
  unfold sinkIdD; rw [getOrCreateNode_kn]

/-- The initial-inventory edge literal appended by
`add_initial_inventory_edge`. -/
def invEdgeMk (g : Graph) (airport : String) (kit : KitType)
    (quantity : ℕ) : Edge :=
  { source := sourceIdD g, target := .airport airport 0 kit,
    capacity := some quantity, cost := 0,
    edgeType := .initial_inventory, mKit := some kit }

theorem add_initial_inventory_edge_edges (g : Graph) (a : String)
    (k : KitType) (q : ℕ) :
    (add_initial_inventory_edge g a k q).edges =
      g.edges ++ [invEdgeMk g a k q] := by
  simp [add_initial_inventory_edge, invEdgeMk]

@[simp] theorem add_initial_inventory_edge_ph (g : Graph) (a : String)
    (k : KitType) (q : ℕ) :
    (add_initial_inventory_edge g a k q).planning_horizon =
      g.planning_horizon := by
  simp [add_initial_inventory_edge]

@[simp] theorem add_initial_inventory_edge_sn (g : Graph) (a : String)
    (k : KitType) (q : ℕ) :
    (add_initial_inventory_edge g a k q).source_node =
      some (sourceIdD g) := by
  simp [add_initial_inventory_edge]

@[simp] theorem add_initial_inventory_edge_kn (g : Graph) (a : String)
    (k : KitType) (q : ℕ) :
    (add_initial_inventory_edge g a k q).sink_node = g.sink_node := by
  simp [add_initial_inventory_edge]

/-- The storage edge literal appended by `add_storage_edge`. -/
def storageEdgeMk (airport : String) (time : Int) (kit : KitType)
    (capacity : ℕ) (storage_cost : ℚ) : Edge :=
  { source := .airport airport time kit,
    target := .airport airport (time + 1) kit,
    capacity := some capacity, cost := storage_cost,
    edgeType := .storage, mKit := some kit }

theorem add_storage_edge_edges (g : Graph) (a : String) (t : Int)
    (k : KitType) (c : ℕ) (sc : ℚ) :
    (add_storage_edge g a t k c sc).edges =
      g.edges ++
        (if t ≥ (g.planning_horizon : Int) - 1 then []
         else [storageEdgeMk a t k c sc]) := by
  unfold add_storage_edge; split <;> simp [storageEdgeMk]

@[simp] theorem add_storage_edge_ph (g : Graph) (a : String) (t : Int)
    (k : KitType) (c : ℕ) (sc : ℚ) :
    (add_storage_edge g a t k c sc).planning_horizon =
      g.planning_horizon := by
  unfold add_storage_edge; split <;> simp

@[simp] theorem add_storage_edge_sn (g : Graph) (a : String) (t : Int)
    (k : KitType) (c : ℕ) (sc : ℚ) :
    (add_storage_edge g a t k c sc).source_node = g.source_node := by
  unfold add_storage_edge; split <;> simp

@[simp] theorem add_storage_edge_kn (g : Graph) (a : String) (t : Int)
    (k : KitType) (c : ℕ) (sc : ℚ) :
    (add_storage_edge g a t k c sc).sink_node = g.sink_node := by
  unfold add_storage_edge; split <;> simp

/-- The flight edge literal appended by `add_flight_edge`. -/
def flightEdgeMk (fid sap dap : String) (dep arr : Int) (kit : KitType)
    (capacity : ℕ) (cost : ℚ) : Edge :=
  { source := .airport sap dep kit, target := .airport dap arr kit,
    capacity := some capacity, cost := cost, edgeType := .flight,
    mFlightId := some fid, mKit := some kit }

theorem add_flight_edge_edges (g : Graph) (fid sap dap : String)
    (dep arr : Int) (k : KitType) (c : ℕ) (cost : ℚ) :
    (add_flight_edge g fid sap dap dep arr k c cost).edges =
      g.edges ++
        (if dep ≥ (g.planning_horizon : Int) ∨
            arr ≥ (g.planning_horizon : Int) then []
         else [flightEdgeMk fid sap dap dep arr k c cost]) := by
  unfold add_flight_edge; split <;> simp [flightEdgeMk]

@[simp] theorem add_flight_edge_ph (g : Graph) (fid sap dap : String)
    (dep arr : Int) (k : KitType) (c : ℕ) (cost : ℚ) :
    (add_flight_edge g fid sap dap dep arr k c cost).planning_horizon =
      g.planning_horizon := by
  unfold add_flight_edge; split <;> simp

@[simp] theorem add_flight_edge_sn (g : Graph) (fid sap dap : String)
    (dep arr : Int) (k : KitType) (c : ℕ) (cost : ℚ) :
    (add_flight_edge g fid sap dap dep arr k c cost).source_node =
      g.source_node := by
  unfold add_flight_edge; split <;> simp

@[simp] theorem add_flight_edge_kn (g : Graph) (fid sap dap : String)
    (dep arr : Int) (k : KitType) (c : ℕ) (cost : ℚ) :
    (add_flight_edge g fid sap dap dep arr k c cost).sink_node =
      g.sink_node := by
  unfold add_flight_edge; split <;> simp

/-- The processing edge literal appended by `add_processing_edge`. -/
def processingEdgeMk (airport : String) (arrival_time : Int)
    (processing_time : ℕ) (kit : KitType) : Edge :=
  { source := .airport airport arrival_time kit,
    target := .airport airport (arrival_time + (processing_time : Int)) kit,
    capacity := none, cost := 0, edgeType := .processing,
    mKit := some kit }

theorem add_processing_edge_edges (g : Graph) (a : String) (arr : Int)
    (pt : ℕ) (k : KitType) :
    (add_processing_edge g a arr pt k).edges =
      g.edges ++
        (if arr + (pt : Int) ≥ (g.planning_horizon : Int) then []
         else [processingEdgeMk a arr pt k]) := by
  by_cases h : arr + (pt : Int) ≥ (g.planning_horizon : Int) <;>
    simp [add_processing_edge, processingEdgeMk, h]

@[simp] theorem add_processing_edge_ph (g : Graph) (a : String) (arr : Int)
    (pt : ℕ) (k : KitType) :
    (add_processing_edge g a arr pt k).planning_horizon =
      g.planning_horizon := by
  by_cases h : arr + (pt : Int) ≥ (g.planning_horizon : Int) <;>
    simp [add_processing_edge, h]

@[simp] theorem add_processing_edge_sn (g : Graph) (a : String) (arr : Int)
    (pt : ℕ) (k : KitType) :
    (add_processing_edge g a arr pt k).source_node = g.source_node := by
  by_cases h : arr + (pt : Int) ≥ (g.planning_horizon : Int) <;>
    simp [add_processing_edge, h]

@[simp] theorem add_processing_edge_kn (g : Graph) (a : String) (arr : Int)
    (pt : ℕ) (k : KitType) :
    (add_processing_edge g a arr pt k).sink_node = g.sink_node := by
  by_cases h : arr + (pt : Int) ≥ (g.planning_horizon : Int) <;>
    simp [add_processing_edge, h]

/-- The demand edge literal appended by `add_demand_edge`. -/
def demandEdgeMk (g : Graph) (fid airport : String) (dep : Int)
    (kit : KitType) (required : ℕ) (penalty : ℚ) : Edge :=
  { source := .airport airport dep kit, target := sinkIdD g,
    capacity := some required, cost := penalty, edgeType := .demand,
    mFlightId := some fid, mKit := some kit }

theorem add_demand_edge_edges (g : Graph) (fid a : String) (dep : Int)
    (k : KitType) (r : ℕ) (pen : ℚ) :
    (add_demand_edge g fid a dep k r pen).edges =
      g.edges ++ [demandEdgeMk g fid a dep k r pen] := by
  simp [add_demand_edge, demandEdgeMk]

@[simp] theorem add_demand_edge_ph (g : Graph) (fid a : String) (dep : Int)
    (k : KitType) (r : ℕ) (pen : ℚ) :
    (add_demand_edge g fid a dep k r pen).planning_horizon =
      g.planning_horizon := by
  simp [add_demand_edge]

@[simp] theorem add_demand_edge_sn (g : Graph) (fid a : String) (dep : Int)
    (k : KitType) (r : ℕ) (pen : ℚ) :
    (add_demand_edge g fid a dep k r pen).source_node = g.source_node := by
  simp [add_demand_edge]

@[simp] theorem add_demand_edge_kn (g : Graph) (fid a : String) (dep : Int)
    (k : KitType) (r : ℕ) (pen : ℚ) :
    (add_demand_edge g fid a dep k r pen).sink_node =
      some (sinkIdD g) := by
  simp [add_demand_edge]

/-- The purchase edge literal appended by `add_purchase_edge`. -/
def purchaseEdgeMk (g : Graph) (kit : KitType) (ot dt : Int)
    (quantity : ℕ) (cost : ℚ) : Edge :=
  { source := sourceIdD g, target := .airport "HUB1" dt kit,
    capacity := some quantity, cost := cost, edgeType := .purchase,
    mKit := some kit, mOrderTime := some ot, mDeliveryTime := some dt }

theorem add_purchase_edge_edges (g : Graph) (k : KitType) (ot dt : Int)
    (q : ℕ) (c : ℚ) :
    (add_purchase_edge g k ot dt q c).edges =
      g.edges ++
        (if dt ≥ (g.planning_horizon : Int) then []
         else [purchaseEdgeMk g k ot dt q c]) := by
  unfold add_purchase_edge; split <;> simp [purchaseEdgeMk]

@[simp] theorem add_purchase_edge_ph (g : Graph) (k : KitType) (ot dt : Int)
    (q : ℕ) (c : ℚ) :
    (add_purchase_edge g k ot dt q c).planning_horizon =
      g.planning_horizon := by
  unfold add_purchase_edge; split <;> simp

theorem add_purchase_edge_sn (g : Graph) (k : KitType) (ot dt : Int)
    (q : ℕ) (c : ℚ) :
    (add_purchase_edge g k ot dt q c).source_node = g.source_node ∨
    (add_purchase_edge g k ot dt q c).source_node = some (sourceIdD g) := by
  unfold add_purchase_edge; split <;> simp

@[simp] theorem add_purchase_edge_kn (g : Graph) (k : KitType) (ot dt : Int)
    (q : ℕ) (c : ℚ) :
    (add_purchase_edge g k ot dt q c).sink_node = g.sink_node := by
  unfold add_purchase_edge; split <;> simp

/-! ### Invariance of the source / sink ids under the graph operations -/

@[simp] theorem add_initial_inventory_edge_srcId (g : Graph) (a : String)
    (k : KitType) (q : ℕ) :
    sourceIdD (add_initial_inventory_edge g a k q) = sourceIdD g := by
  unfold sourceIdD; rw [add_initial_inventory_edge_sn]; rfl

@[simp] theorem add_initial_inventory_edge_snkId (g : Graph) (a : String)
    (k : KitType) (q : ℕ) :
    sinkIdD (add_initial_inventory_edge g a k q) = sinkIdD g := by
  unfold sinkIdD; rw [add_initial_inventory_edge_kn]

@[simp] theorem add_storage_edge_srcId (g : Graph) (a : String) (t : Int)
    (k : KitType) (c : ℕ) (sc : ℚ) :
    sourceIdD (add_storage_edge g a t k c sc) = sourceIdD g := by
  unfold sourceIdD; rw [add_storage_edge_sn]

@[simp] theorem add_storage_edge_snkId (g : Graph) (a : String) (t : Int)
    (k : KitType) (c : ℕ) (sc : ℚ) :
    sinkIdD (add_storage_edge g a t k c sc) = sinkIdD g := by
  unfold sinkIdD; rw [add_storage_edge_kn]

@[simp] theorem add_flight_edge_srcId (g : Graph) (fid sap dap : String)
    (dep arr : Int) (k : KitType) (c : ℕ) (cost : ℚ) :
    sourceIdD (add_flight_edge g fid sap dap dep arr k c cost) =
      sourceIdD g := by
  unfold sourceIdD; rw [add_flight_edge_sn]

@[simp] theorem add_flight_edge_snkId (g : Graph) (fid sap dap : String)
    (dep arr : Int) (k : KitType) (c : ℕ) (cost : ℚ) :
    sinkIdD (add_flight_edge g fid sap dap dep arr k c cost) = sinkIdD g := by
  unfold sinkIdD; rw [add_flight_edge_kn]

@[simp] theorem add_processing_edge_srcId (g : Graph) (a : String)
    (arr : Int) (pt : ℕ) (k : KitType) :
    sourceIdD (add_processing_edge g a arr pt k) = sourceIdD g := by
  unfold sourceIdD; rw [add_processing_edge_sn]

@[simp] theorem add_processing_edge_snkId (g : Graph) (a : String)
    (arr : Int) (pt : ℕ) (k : KitType) :
    sinkIdD (add_processing_edge g a arr pt k) = sinkIdD g := by
  unfold sinkIdD; rw [add_processing_edge_kn]

@[simp] theorem add_demand_edge_srcId (g : Graph) (fid a : String)
    (dep : Int) (k : KitType) (r : ℕ) (pen : ℚ) :
    sourceIdD (add_demand_edge g fid a dep k r pen) = sourceIdD g := by
  unfold sourceIdD; rw [add_demand_edge_sn]

@[simp] theorem add_demand_edge_snkId (g : Graph) (fid a : String)
    (dep : Int) (k : KitType) (r : ℕ) (pen : ℚ) :
    sinkIdD (add_demand_edge g fid a dep k r pen) = sinkIdD g := by
  unfold sinkIdD; rw [add_demand_edge_kn]; rfl

@[simp] theorem add_purchase_edge_srcId (g : Graph) (k : KitType)
    (ot dt : Int) (q : ℕ) (c : ℚ) :
    sourceIdD (add_purchase_edge g k ot dt q c) = sourceIdD g := by
  rcases add_purchase_edge_sn g k ot dt q c with h | h <;>
    simp [sourceIdD, h]

@[simp] theorem add_purchase_edge_snkId (g : Graph) (k : KitType)
    (ot dt : Int) (q : ℕ) (c : ℚ) :
    sinkIdD (add_purchase_edge g k ot dt q c) = sinkIdD g := by
  unfold sinkIdD; rw [add_purchase_edge_kn]

/-! ### Folding the builder steps -/

/-- Effect of folding a graph-extending operation over a list: edges are
appended per element, and horizon / source id / sink id are stable. -/
theorem foldl_graph_edges {α : Type}
    (f : Graph → α → Graph) (E : ℕ → NodeId → NodeId → α → List Edge)
    (hf : ∀ g a, (f g a).edges =
      g.edges ++ E g.planning_horizon (sourceIdD g) (sinkIdD g) a)
    (h1 : ∀ g a, (f g a).planning_horizon = g.planning_horizon)
    (h2 : ∀ g a, sourceIdD (f g a) = sourceIdD g)
    (h3 : ∀ g a, sinkIdD (f g a) = sinkIdD g) :
    ∀ (l : List α) (g : Graph),
      (l.foldl f g).edges =
        g.edges ++
          l.flatMap (E g.planning_horizon (sourceIdD g) (sinkIdD g)) ∧
      (l.foldl f g).planning_horizon = g.planning_horizon ∧
      sourceIdD (l.foldl f g) = sourceIdD g ∧
      sinkIdD (l.foldl f g) = sinkIdD g := by
  intro l
  induction l with
  | nil => intro g; simp
  | cons a t ih =>
      intro g
      obtain ⟨e1, e2, e3, e4⟩ := ih (f g a)
      refine ⟨?_, ?_, ?_, ?_⟩
      · rw [List.foldl_cons, e1, hf, h1, h2, h3, List.flatMap_cons,
          List.append_assoc]
      · rw [List.foldl_cons, e2, h1]
      · rw [List.foldl_cons, e3, h2]
      · rw [List.foldl_cons, e4, h3]

/-- The initial-inventory edges appended by step A, per inventory item. -/
def invEdgesFor (sid : NodeId) (p : (String × KitType) × ℕ) : List Edge :=
  if 0 < p.2 then
    [{ source := sid, target := .airport p.1.1 0 p.1.2,
       capacity := some p.2, cost := 0,
       edgeType := .initial_inventory, mKit := some p.1.2 }]
  else []

theorem stepInventory_edges (g : Graph)
    (inventory : List ((String × KitType) × ℕ)) :
    (stepInventory g inventory).edges =
      g.edges ++ inventory.flatMap (invEdgesFor (sourceIdD g)) ∧
    (stepInventory g inventory).planning_horizon = g.planning_horizon ∧
    sourceIdD (stepInventory g inventory) = sourceIdD g ∧
    sinkIdD (stepInventory g inventory) = sinkIdD g := by
  unfold stepInventory
  refine foldl_graph_edges _ (fun _ sid _ p => invEdgesFor sid p)
    ?_ ?_ ?_ ?_ inventory g
  · intro g p
    by_cases h : 0 < p.2 <;>
      simp [invEdgesFor, h, add_initial_inventory_edge_edges, invEdgeMk]
  · intro g p; by_cases h : 0 < p.2 <;> simp [h]
  · intro g p; by_cases h : 0 < p.2 <;> simp [h]
  · intro g p; by_cases h : 0 < p.2 <;> simp [h]

/-- The storage edge appended by step B for one hour, airport and kit. -/
def storageEdgesFor (H : ℕ) (t : Int) (p : String × Airport)
    (k : KitType) : List Edge :=
  if t ≥ (H : Int) - 1 then []
  else [storageEdgeMk p.1 t k (storageCapacityFor p.2 k) 0]

theorem storageKitFold (t : Int) (p : String × Airport) (g : Graph) :
    ((kitTypesList.foldl
        (fun g k => add_storage_edge g p.1 t k (storageCapacityFor p.2 k) 0)
        g).edges =
      g.edges ++
        kitTypesList.flatMap (storageEdgesFor g.planning_horizon t p)) ∧
    (kitTypesList.foldl
        (fun g k => add_storage_edge g p.1 t k (storageCapacityFor p.2 k) 0)
        g).planning_horizon = g.planning_horizon ∧
    sourceIdD (kitTypesList.foldl
        (fun g k => add_storage_edge g p.1 t k (storageCapacityFor p.2 k) 0)
        g) = sourceIdD g ∧
    sinkIdD (kitTypesList.foldl
        (fun g k => add_storage_edge g p.1 t k (storageCapacityFor p.2 k) 0)
        g) = sinkIdD g := by
  refine foldl_graph_edges _ (fun H _ _ k => storageEdgesFor H t p k)
    ?_ ?_ ?_ ?_ kitTypesList g
  · intro g k
    rw [add_storage_edge_edges]
    unfold storageEdgesFor
    by_cases h : t ≥ (g.planning_horizon : Int) - 1 <;> simp [h]
  · intro g k; simp
  · intro g k; simp
  · intro g k; simp

theorem storageAirportFold (t : Int) (airports : List (String × Airport))
    (g : Graph) :
    ((airports.foldl
        (fun g p => kitTypesList.foldl
          (fun g k => add_storage_edge g p.1 t k (storageCapacityFor p.2 k) 0)
          g) g).edges =
      g.edges ++
        airports.flatMap (fun p =>
          kitTypesList.flatMap (storageEdgesFor g.planning_horizon t p))) ∧
    (airports.foldl
        (fun g p => kitTypesList.foldl
          (fun g k => add_storage_edge g p.1 t k (storageCapacityFor p.2 k) 0)
          g) g).planning_horizon = g.planning_horizon ∧
    sourceIdD (airports.foldl
        (fun g p => kitTypesList.foldl
          (fun g k => add_storage_edge g p.1 t k (storageCapacityFor p.2 k) 0)
          g) g) = sourceIdD g ∧
    sinkIdD (airports.foldl
        (fun g p => kitTypesList.foldl
          (fun g k => add_storage_edge g p.1 t k (storageCapacityFor p.2 k) 0)
          g) g) = sinkIdD g := by
  refine foldl_graph_edges _
    (fun H _ _ p => kitTypesList.flatMap (storageEdgesFor H t p))
    ?_ ?_ ?_ ?_ airports g
  · intro g p; exact (storageKitFold t p g).1
  · intro g p; exact (storageKitFold t p g).2.1
  · intro g p; exact (storageKitFold t p g).2.2.1
  · intro g p; exact (storageKitFold t p g).2.2.2

theorem stepStorage_edges (g : Graph) (airports : List (String × Airport)) :
    (stepStorage g airports).edges =
      g.edges ++
        (List.range (g.planning_horizon - 1)).flatMap (fun t =>
          airports.flatMap (fun p =>
            kitTypesList.flatMap
              (storageEdgesFor g.planning_horizon (t : Int) p))) ∧
    (stepStorage g airports).planning_horizon = g.planning_horizon ∧
    sourceIdD (stepStorage g airports) = sourceIdD g ∧
    sinkIdD (stepStorage g airports) = sinkIdD g := by
  unfold stepStorage
  refine foldl_graph_edges _
    (fun H _ _ (t : ℕ) => airports.flatMap (fun p =>
      kitTypesList.flatMap (storageEdgesFor H (t : Int) p)))
    ?_ ?_ ?_ ?_ (List.range (g.planning_horizon - 1)) g
  · intro g t; exact (storageAirportFold (t : Int) airports g).1
  · intro g t; exact (storageAirportFold (t : Int) airports g).2.1
  · intro g t; exact (storageAirportFold (t : Int) airports g).2.2.1
  · intro g t; exact (storageAirportFold (t : Int) airports g).2.2.2

/-- The flight and processing edges appended by the flight-edge loop for
one `(flight, kit)` pair. -/
def flightKitEdges (H : ℕ) (airports : List (String × Airport))
    (aircraft_map : List (String × AircraftType)) (cur : Int)
    (f : FlightInfo) (kit : KitType) : List Edge :=
  match alookup airports f.source, alookup airports f.dest with
  | some source_airport, some dest_airport =>
      match alookup aircraft_map f.aircraft with
      | some aircraft =>
          (if f.departure_hour - cur ≥ (H : Int) ∨
              f.arrival_hour - cur ≥ (H : Int) then []
           else
             [flightEdgeMk f.id f.source f.dest (f.departure_hour - cur)
               (f.arrival_hour - cur) kit (aircraftCapacityFor aircraft kit)
               (agetD source_airport.loading_cost kit 5 +
                 f.distance * f.fuel_cost_per_km * kitWeight kit +
                 agetD dest_airport.processing_cost kit 10)]) ++
          (if (f.arrival_hour - cur) +
              ((agetD dest_airport.processing_time kit 2 : ℕ) : Int) ≥
                (H : Int) then []
           else
             [processingEdgeMk f.dest (f.arrival_hour - cur)
               (agetD dest_airport.processing_time kit 2) kit])
      | none => []
  | _, _ => []

theorem flightKitStep_edges (g : Graph) (A : List (String × Airport))
    (M : List (String × AircraftType)) (cur : Int) (f : FlightInfo)
    (kit : KitType) :
    (flightKitStep g A M cur f kit).edges =
      g.edges ++ flightKitEdges g.planning_horizon A M cur f kit ∧
    (flightKitStep g A M cur f kit).planning_horizon = g.planning_horizon ∧
    sourceIdD (flightKitStep g A M cur f kit) = sourceIdD g ∧
    sinkIdD (flightKitStep g A M cur f kit) = sinkIdD g := by
  unfold flightKitStep flightKitEdges
  cases h1 : alookup A f.source <;> cases h2 : alookup A f.dest <;>
    cases h3 : alookup M f.aircraft <;> simp
  rw [add_processing_edge_edges, add_flight_edge_edges]
  simp [List.append_assoc]

theorem flightKitFold (A : List (String × Airport))
    (M : List (String × AircraftType)) (cur : Int) (f : FlightInfo)
    (g : Graph) :
    ((kitTypesList.foldl (fun g kit => flightKitStep g A M cur f kit)
        g).edges =
      g.edges ++
        kitTypesList.flatMap (flightKitEdges g.planning_horizon A M cur f)) ∧
    (kitTypesList.foldl (fun g kit => flightKitStep g A M cur f kit)
        g).planning_horizon = g.planning_horizon ∧
    sourceIdD (kitTypesList.foldl
      (fun g kit => flightKitStep g A M cur f kit) g) = sourceIdD g ∧
    sinkIdD (kitTypesList.foldl
      (fun g kit => flightKitStep g A M cur f kit) g) = sinkIdD g := by
  refine foldl_graph_edges _ (fun H _ _ kit => flightKitEdges H A M cur f kit)
    ?_ ?_ ?_ ?_ kitTypesList g
  · intro g kit; exact (flightKitStep_edges g A M cur f kit).1
  · intro g kit; exact (flightKitStep_edges g A M cur f kit).2.1
  · intro g kit; exact (flightKitStep_edges g A M cur f kit).2.2.1
  · intro g kit; exact (flightKitStep_edges g A M cur f kit).2.2.2

/-- The edges appended by step C for one flight. -/
def flightEdgesForFlight (H : ℕ) (airports : List (String × Airport))
    (aircraft_map : List (String × AircraftType)) (cur : Int)
    (f : FlightInfo) : List Edge :=
  if f.departure_hour - cur < 0 then []
  else kitTypesList.flatMap (flightKitEdges H airports aircraft_map cur f)

theorem stepFlights_edges (g : Graph) (A : List (String × Airport))
    (M : List (String × AircraftType)) (cur : Int)
    (fs : List FlightInfo) :
    (stepFlights g A M cur fs).edges =
      g.edges ++ fs.flatMap (flightEdgesForFlight g.planning_horizon A M cur) ∧
    (stepFlights g A M cur fs).planning_horizon = g.planning_horizon ∧
    sourceIdD (stepFlights g A M cur fs) = sourceIdD g ∧
    sinkIdD (stepFlights g A M cur fs) = sinkIdD g := by
  unfold stepFlights
  refine foldl_graph_edges _
    (fun H _ _ f => flightEdgesForFlight H A M cur f) ?_ ?_ ?_ ?_ fs g
  · intro g f
    beta_reduce
    unfold flightEdgesForFlight
    by_cases h : f.departure_hour - cur < 0
    · simp [h]
    · rw [if_neg h, if_neg h]; exact (flightKitFold A M cur f g).1
  · intro g f
    by_cases h : f.departure_hour - cur < 0
    · simp [h]
    · rw [if_neg h]; exact (flightKitFold A M cur f g).2.1
  · intro g f
    by_cases h : f.departure_hour - cur < 0
    · simp [h]
    · rw [if_neg h]; exact (flightKitFold A M cur f g).2.2.1
  · intro g f
    by_cases h : f.departure_hour - cur < 0
    · simp [h]
    · rw [if_neg h]; exact (flightKitFold A M cur f g).2.2.2

/-- The demand edges appended by step D for one flight. -/
def demandEdgesFor (skid : NodeId) (cur : Int) (f : FlightInfo) :
    List Edge :=
  if f.departure_hour - cur < 0 then []
  else
    kitTypesList.flatMap (fun k =>
      if 0 < f.passengers k then
        [{ source := .airport f.source (f.departure_hour - cur) k,
           target := skid, capacity := some (f.passengers k),
           cost := f.distance * demandKitCost k * 10,
           edgeType := .demand, mFlightId := some f.id, mKit := some k }]
      else [])

theorem demandKitFold (cur : Int) (f : FlightInfo) (g : Graph) :
    ((kitTypesList.foldl
        (fun g kit =>
          if 0 < f.passengers kit then
            add_demand_edge g f.id f.source (f.departure_hour - cur) kit
              (f.passengers kit) (f.distance * demandKitCost kit * 10)
          else g) g).edges =
      g.edges ++
        kitTypesList.flatMap (fun k =>
          if 0 < f.passengers k then
            [{ source := .airport f.source (f.departure_hour - cur) k,
               target := sinkIdD g, capacity := some (f.passengers k),
               cost := f.distance * demandKitCost k * 10,
               edgeType := .demand, mFlightId := some f.id,
               mKit := some k }]
          else [])) ∧
    (kitTypesList.foldl
        (fun g kit =>
          if 0 < f.passengers kit then
            add_demand_edge g f.id f.source (f.departure_hour - cur) kit
              (f.passengers kit) (f.distance * demandKitCost kit * 10)
          else g) g).planning_horizon = g.planning_horizon ∧
    sourceIdD (kitTypesList.foldl
        (fun g kit =>
          if 0 < f.passengers kit then
            add_demand_edge g f.id f.source (f.departure_hour - cur) kit
              (f.passengers kit) (f.distance * demandKitCost kit * 10)
          else g) g) = sourceIdD g ∧
    sinkIdD (kitTypesList.foldl
        (fun g kit =>
          if 0 < f.passengers kit then
            add_demand_edge g f.id f.source (f.departure_hour - cur) kit
              (f.passengers kit) (f.distance * demandKitCost kit * 10)
          else g) g) = sinkIdD g := by
  refine foldl_graph_edges _
    (fun _ _ skid k =>
      if 0 < f.passengers k then
        [{ source := .airport f.source (f.departure_hour - cur) k,
           target := skid, capacity := some (f.passengers k),
           cost := f.distance * demandKitCost k * 10,
           edgeType := .demand, mFlightId := some f.id, mKit := some k }]
      else []) ?_ ?_ ?_ ?_ kitTypesList g
  · intro g kit
    by_cases h : 0 < f.passengers kit <;>
      simp [h, add_demand_edge_edges, demandEdgeMk]
  · intro g kit; by_cases h : 0 < f.passengers kit <;> simp [h]
  · intro g kit; by_cases h : 0 < f.passengers kit <;> simp [h]
  · intro g kit; by_cases h : 0 < f.passengers kit <;> simp [h]

theorem stepDemand_edges (g : Graph) (cur : Int) (fs : List FlightInfo) :
    (stepDemand g cur fs).edges =
      g.edges ++ fs.flatMap (demandEdgesFor (sinkIdD g) cur) ∧
    (stepDemand g cur fs).planning_horizon = g.planning_horizon ∧
    sourceIdD (stepDemand g cur fs) = sourceIdD g ∧
    sinkIdD (stepDemand g cur fs) = sinkIdD g := by
  unfold stepDemand
  refine foldl_graph_edges _ (fun _ _ skid f => demandEdgesFor skid cur f)
    ?_ ?_ ?_ ?_ fs g
  · intro g f
    beta_reduce
    unfold demandEdgesFor
    by_cases h : f.departure_hour - cur < 0
    · simp [h]
    · rw [if_neg h, if_neg h]; exact (demandKitFold cur f g).1
  · intro g f
    by_cases h : f.departure_hour - cur < 0
    · simp [h]
    · rw [if_neg h]; exact (demandKitFold cur f g).2.1
  · intro g f
    by_cases h : f.departure_hour - cur < 0
    · simp [h]
    · rw [if_neg h]; exact (demandKitFold cur f g).2.2.1
  · intro g f
    by_cases h : f.departure_hour - cur < 0
    · simp [h]
    · rw [if_neg h]; exact (demandKitFold cur f g).2.2.2

/-- The purchase edge appended by step E for one kit type. -/
def purchaseEdgesFor (H : ℕ) (sid : NodeId) (k : KitType) : List Edge :=
  if purchaseLeadTime k < H then
    [{ source := sid, target := .airport "HUB1" (purchaseLeadTime k) k,
       capacity := some 1000, cost := purchaseCost k,
       edgeType := .purchase, mKit := some k, mOrderTime := some 0,
       mDeliveryTime := some (purchaseLeadTime k) }]
  else []

theorem stepPurchase_edges (g : Graph) :
    (stepPurchase g).edges =
      g.edges ++
        kitTypesList.flatMap (purchaseEdgesFor g.planning_horizon
          (sourceIdD g)) ∧
    (stepPurchase g).planning_horizon = g.planning_horizon ∧
    sourceIdD (stepPurchase g) = sourceIdD g ∧
    sinkIdD (stepPurchase g) = sinkIdD g := by
  unfold stepPurchase
  refine foldl_graph_edges _ (fun H sid _ k => purchaseEdgesFor H sid k)
    ?_ ?_ ?_ ?_ kitTypesList g
  · intro g kit
    beta_reduce
    unfold purchaseEdgesFor
    by_cases h : purchaseLeadTime kit < g.planning_horizon
    · rw [if_pos h, if_pos h, add_purchase_edge_edges,
        if_neg (by omega : ¬ ((purchaseLeadTime kit : Int) ≥
          (g.planning_horizon : Int)))]
      simp [purchaseEdgeMk]
    · rw [if_neg h, if_neg h]; simp
  · intro g kit
    by_cases h : purchaseLeadTime kit < g.planning_horizon <;> simp [h]
  · intro g kit
    by_cases h : purchaseLeadTime kit < g.planning_horizon <;> simp [h]
  · intro g kit
    by_cases h : purchaseLeadTime kit < g.planning_horizon <;> simp [h]

/-- Full characterization of the edge list `build_network` produces, in
construction order, together with the graph-level bookkeeping facts. -/
theorem build_network_edges (A : List (String × Airport))
    (M : List (String × AircraftType)) (fs : List FlightInfo)
    (inv : List ((String × KitType) × ℕ)) (H : ℕ) (d hr : Int) :
    (build_network A M fs inv H d hr).edges =
      inv.flatMap (invEdgesFor .source) ++
      (List.range (H - 1)).flatMap (fun t =>
        A.flatMap (fun p =>
          kitTypesList.flatMap (storageEdgesFor H (t : Int) p))) ++
      fs.flatMap (flightEdgesForFlight H A M (d * 24 + hr)) ++
      fs.flatMap (demandEdgesFor .sink (d * 24 + hr)) ++
      kitTypesList.flatMap (purchaseEdgesFor H .source) ∧
    (build_network A M fs inv H d hr).planning_horizon = H ∧
    sourceIdD (build_network A M fs inv H d hr) = .source ∧
    sinkIdD (build_network A M fs inv H d hr) = .sink := by
  unfold build_network
  have g0ph : (Graph.mk H [] [] none none).planning_horizon = H := rfl
  have g0src : sourceIdD (Graph.mk H [] [] none none) = .source := rfl
  have g0snk : sinkIdD (Graph.mk H [] [] none none) = .sink := rfl
  obtain ⟨a1, a2, a3, a4⟩ :=
    stepInventory_edges (Graph.mk H [] [] none none) inv
  obtain ⟨b1, b2, b3, b4⟩ :=
    stepStorage_edges (stepInventory (Graph.mk H [] [] none none) inv) A
  obtain ⟨c1, c2, c3, c4⟩ :=
    stepFlights_edges
      (stepStorage (stepInventory (Graph.mk H [] [] none none) inv) A)
      A M (d * 24 + hr) fs
  obtain ⟨d1, d2, d3, d4⟩ :=
    stepDemand_edges
      (stepFlights
        (stepStorage (stepInventory (Graph.mk H [] [] none none) inv) A)
        A M (d * 24 + hr) fs) (d * 24 + hr) fs
  obtain ⟨e1, e2, e3, e4⟩ :=
    stepPurchase_edges
      (stepDemand
        (stepFlights
          (stepStorage (stepInventory (Graph.mk H [] [] none none) inv) A)
          A M (d * 24 + hr) fs) (d * 24 + hr) fs)
  refine ⟨?_, ?_, ?_, ?_⟩
  · rw [e1, d1, c1, b1, a1]
    rw [a2, a3, a4, g0ph, g0src, g0snk] at *
    rw [b2, b3, b4] at *
    rw [c2, c3, c4] at *
    rw [d2, d3, d4] at *
    simp [List.append_assoc]
  · rw [e2, d2, c2, b2, a2, g0ph]
  · rw [e3, d3, c3, b3, a3, g0src]
  · rw [e4, d4, c4, b4, a4, g0snk]

/-! ### Shapes of the edges each builder step produces -/

theorem mem_invEdgesFor {e : Edge} {sid : NodeId}
    {p : (String × KitType) × ℕ} (h : e ∈ invEdgesFor sid p) :
    e.edgeType = .initial_inventory ∧ e.source = sid ∧
    e.target = .airport p.1.1 0 p.1.2 ∧ e.cost = 0 ∧
    e.capacity = some p.2 ∧ 0 < p.2 := by
  unfold invEdgesFor at h
  split at h
  · simp at h; subst h; simp_all
  · simp at h

theorem mem_storageEdgesFor {e : Edge} {H : ℕ} {t : Int}
    {p : String × Airport} {k : KitType} (h : e ∈ storageEdgesFor H t p k) :
    e.edgeType = .storage ∧ e.source = .airport p.1 t k ∧
    e.target = .airport p.1 (t + 1) k ∧ e.cost = 0 ∧
    e.capacity = some (storageCapacityFor p.2 k) := by
  unfold storageEdgesFor at h
  split at h
  · simp at h
  · simp at h; subst h; simp [storageEdgeMk]

theorem mem_flightKitEdges {e : Edge} {H : ℕ}
    {A : List (String × Airport)} {M : List (String × AircraftType)}
    {cur : Int} {f : FlightInfo} {kit : KitType}
    (h : e ∈ flightKitEdges H A M cur f kit) :
    (e.edgeType = .flight ∧ (∃ cap, e.capacity = some cap) ∧
      e.source = .airport f.source (f.departure_hour - cur) kit ∧
      e.target = .airport f.dest (f.arrival_hour - cur) kit ∧
      e.mFlightId = some f.id ∧ e.mKit = some kit ∧
      f.departure_hour - cur < (H : Int) ∧
      f.arrival_hour - cur < (H : Int)) ∨
    (e.edgeType = .processing ∧ e.cost = 0 ∧ e.capacity = none ∧
      (∃ pt : ℕ, e.source = .airport f.dest (f.arrival_hour - cur) kit ∧
        e.target = .airport f.dest (f.arrival_hour - cur + pt) kit)) := by
  unfold flightKitEdges at h
  revert h
  cases h1 : alookup A f.source
  case none =>
    cases h2 : alookup A f.dest <;> (intro h; simp at h)
  case some =>
    cases h2 : alookup A f.dest
    case none => intro h; simp at h
    case some =>
      cases h3 : alookup M f.aircraft
      case none => intro h; simp at h
      case some =>
        intro h
        rw [List.mem_append] at h
        rcases h with h | h
        · split at h
          · simp at h
          · simp at h; subst h
            rename_i hcond
            push_neg at hcond
            left
            refine ⟨rfl, ⟨_, rfl⟩, rfl, rfl, rfl, rfl, ?_, ?_⟩ <;> omega
        · split at h
          · simp at h
          · simp at h; subst h
            right
            exact ⟨rfl, rfl, rfl, _, rfl, rfl⟩

theorem mem_demandEdgesFor {e : Edge} {skid : NodeId} {cur : Int}
    {f : FlightInfo} (h : e ∈ demandEdgesFor skid cur f) :
    e.edgeType = .demand ∧ e.target = skid ∧ e.mFlightId = some f.id ∧
    ¬ f.departure_hour - cur < 0 ∧
    ∃ k : KitType, e.mKit = some k ∧
      e.capacity = some (f.passengers k) ∧ 0 < f.passengers k ∧
      e.source = .airport f.source (f.departure_hour - cur) k ∧
      e.cost = f.distance * demandKitCost k * 10 := by
  unfold demandEdgesFor at h
  split at h
  · simp at h
  · rename_i hneg
    rw [List.mem_flatMap] at h
    obtain ⟨k, hkmem, hk⟩ := h
    split at hk
    · rename_i hpos
      simp at hk; subst hk
      exact ⟨rfl, rfl, rfl, hneg, k, rfl, rfl, hpos, rfl, rfl⟩
    · simp at hk

/-- The purchase edge literal appearing in a built graph. -/
def purchaseLit (sid : NodeId) (k : KitType) : Edge :=
  { source := sid, target := .airport "HUB1" (purchaseLeadTime k) k,
    capacity := some 1000, cost := purchaseCost k,
    edgeType := .purchase, mKit := some k, mOrderTime := some 0,
    mDeliveryTime := some (purchaseLeadTime k) }

theorem mem_purchaseEdgesFor {e : Edge} {H : ℕ} {sid : NodeId}
    {k : KitType} (h : e ∈ purchaseEdgesFor H sid k) :
    purchaseLeadTime k < H ∧ e = purchaseLit sid k := by
  unfold purchaseEdgesFor at h
  split at h
  · simp at h; subst h; rename_i hlt; exact ⟨hlt, rfl⟩
  · simp at h

theorem purchaseEdgesFor_eq {H : ℕ} {sid : NodeId} {k : KitType}
    (h : purchaseLeadTime k < H) :
    purchaseEdgesFor H sid k = [purchaseLit sid k] := by
  unfold purchaseEdgesFor purchaseLit
  rw [if_pos h]

theorem kitTypesList_complete (k : KitType) : k ∈ kitTypesList := by
  cases k <;> simp [kitTypesList]

theorem mem_flightEdgesForFlight {e : Edge} {H : ℕ}
    {A : List (String × Airport)} {M : List (String × AircraftType)}
    {cur : Int} {f : FlightInfo}
    (h : e ∈ flightEdgesForFlight H A M cur f) :
    ¬ f.departure_hour - cur < 0 ∧
    ∃ kit, e ∈ flightKitEdges H A M cur f kit := by
  unfold flightEdgesForFlight at h
  split at h
  · simp at h
  · rename_i hneg
    rw [List.mem_flatMap] at h
    obtain ⟨kit, _, hk⟩ := h
    exact ⟨hneg, kit, hk⟩

/-- In a built graph, the purchase edges are exactly the literals for
the kit types whose lead time is below the horizon. -/
theorem build_purchase_mem (A : List (String × Airport))
    (M : List (String × AircraftType)) (fs : List FlightInfo)
    (inv : List ((String × KitType) × ℕ)) (H : ℕ) (d hr : Int)
    (e : Edge) :
    (e ∈ (build_network A M fs inv H d hr).edges ∧
      e.edgeType = .purchase) ↔
    ∃ k, purchaseLeadTime k < H ∧ e = purchaseLit .source k := by
  constructor
  · rintro ⟨he, ht⟩
    rw [(build_network_edges A M fs inv H d hr).1] at he
    simp only [List.mem_append] at he
    rcases he with ((((h | h) | h) | h) | h)
    · rw [List.mem_flatMap] at h
      obtain ⟨p, _, hp⟩ := h
      rw [(mem_invEdgesFor hp).1] at ht; cases ht
    · rw [List.mem_flatMap] at h
      obtain ⟨t, _, h⟩ := h
      rw [List.mem_flatMap] at h
      obtain ⟨p, _, h⟩ := h
      rw [List.mem_flatMap] at h
      obtain ⟨k, _, h⟩ := h
      rw [(mem_storageEdgesFor h).1] at ht; cases ht
    · rw [List.mem_flatMap] at h
      obtain ⟨f, _, h⟩ := h
      obtain ⟨-, kit, h⟩ := mem_flightEdgesForFlight h
      rcases mem_flightKitEdges h with ⟨h1, -⟩ | ⟨h1, -⟩ <;>
        (rw [h1] at ht; cases ht)
    · rw [List.mem_flatMap] at h
      obtain ⟨f, _, h⟩ := h
      rw [(mem_demandEdgesFor h).1] at ht; cases ht
    · rw [List.mem_flatMap] at h
      obtain ⟨k, _, h⟩ := h
      obtain ⟨hlt, he⟩ := mem_purchaseEdgesFor h
      exact ⟨k, hlt, he⟩
  · rintro ⟨k, hk, rfl⟩
    refine ⟨?_, rfl⟩
    rw [(build_network_edges A M fs inv H d hr).1]
    simp only [List.mem_append]
    right
    rw [List.mem_flatMap]
    exact ⟨k, kitTypesList_complete k, by rw [purchaseEdgesFor_eq hk]; simp⟩

/-- C6: for every kit type, the builder creates a purchase edge iff that
kit's lead time is strictly below the planning horizon; every purchase
edge runs from Source to the hub node `(HUB1, leadTime, kit)` with
capacity 1000 (the configured maximum order size) and cost equal to the
unit purchase cost, and its recorded delivery time minus its recorded
order time is at least the kit's lead time. -/
theorem C6_purchase_edges (A : List (String × Airport))
    (M : List (String × AircraftType)) (fs : List FlightInfo)
    (inv : List ((String × KitType) × ℕ)) (H : ℕ) (d hr : Int) :
    (∀ k : KitType,
      (∃ e ∈ (build_network A M fs inv H d hr).edges,
          e.edgeType = .purchase ∧ e.mKit = some k) ↔
        purchaseLeadTime k < H) ∧
    (∀ e ∈ (build_network A M fs inv H d hr).edges,
      e.edgeType = .purchase →
      ∃ k : KitType, e.mKit = some k ∧ e.source = .source ∧
        e.target = .airport "HUB1" (purchaseLeadTime k) k ∧
        e.capacity = some 1000 ∧ e.cost = purchaseCost k ∧
        e.mOrderTime = some 0 ∧
        e.mDeliveryTime = some (purchaseLeadTime k) ∧
        ∀ ot dt : Int, e.mOrderTime = some ot →
          e.mDeliveryTime = some dt →
          dt - ot ≥ (purchaseLeadTime k : Int)) := by
  constructor
  · intro k
    constructor
    · rintro ⟨e, he, ht, hkit⟩
      obtain ⟨k2, hk2, rfl⟩ :=
        (build_purchase_mem A M fs inv H d hr e).mp ⟨he, ht⟩
      have : some k2 = some k := hkit
      cases this
      exact hk2
    · intro hk
      refine ⟨purchaseLit .source k, ?_, rfl, rfl⟩
      exact ((build_purchase_mem A M fs inv H d hr _).mpr ⟨k, hk, rfl⟩).1
  · intro e he ht
    obtain ⟨k, hk, rfl⟩ :=
      (build_purchase_mem A M fs inv H d hr e).mp ⟨he, ht⟩
    refine ⟨k, rfl, rfl, rfl, rfl, rfl, rfl, rfl, ?_⟩
    intro ot dt hot hdt
    cases hot; cases hdt
    omega

/-- Witness for C6 at a concrete input: with horizon 7 only ECONOMY
(lead time 6) gets a purchase edge; FIRST (lead time 48) gets none. -/
theorem C6_purchase_edges_witness :
    (∃ e ∈ (build_network [] [] [] [] 7 0 0).edges,
        e.edgeType = .purchase ∧ e.mKit = some .ECONOMY) ∧
    ¬ (∃ e ∈ (build_network [] [] [] [] 7 0 0).edges,
        e.edgeType = .purchase ∧ e.mKit = some .FIRST) :=
  ⟨((C6_purchase_edges [] [] [] [] 7 0 0).1 .ECONOMY).mpr (by decide),
   fun h => by
     have := ((C6_purchase_edges [] [] [] [] 7 0 0).1 .FIRST).mp h
     simp [purchaseLeadTime] at this⟩

/-! ### C3: flight-edge targets and processing edges -/

/-- A generic concrete airport used by the concrete test graphs. -/
def apStd : Airport :=
  { capacity_first := 10, capacity_business := 10,
    capacity_premium := 10, capacity_economy := 10 }

/-- A concrete aircraft type. -/
def acStd : AircraftType :=
  { first_capacity := 1, business_capacity := 1,
    premium_capacity := 1, economy_capacity := 100 }

/-- A flight A → B departing at relative hour 0, arriving at hour 1,
no passengers. -/
def flC3 : FlightInfo :=
  { id := "F1", source := "A", dest := "B", aircraft := "X",
    departure_hour := 0, arrival_hour := 1, distance := 1,
    fuel_cost_per_km := mkRat 1 2, passengers := fun _ => 0 }

/-- Graph built from one flight A → B (arrival hour 1, processing time
2) with horizon 4: it contains flight, processing and storage edges. -/
def gC3 : Graph :=
  build_network [("A", apStd), ("B", apStd)] [("X", acStd)] [flC3] [] 4 0 0

/-- C3 (amended): a flight edge's target is the plain node
`(destAirport, arrTimeRel, kit)` — node identity has no
FROZEN/AVAILABLE kind — and storage, demand and processing edges at the
same `(airport, time, kit)` coordinates attach to exactly that node, so
an arriving kit can feed them at the arrival hour itself; the
processing edge is just an extra edge from that node to
`(destAirport, arrTimeRel + processingTime, kit)`. -/
theorem C3_flight_target_nodes (fid fid2 sap dap : String) (dep arr : Int)
    (kit : KitType) (cap : ℕ) (cost : ℚ) (c r : ℕ) (sc pen : ℚ)
    (pt : ℕ) (g0 : Graph) :
    (flightEdgeMk fid sap dap dep arr kit cap cost).target =
      (storageEdgeMk dap arr kit c sc).source ∧
    (flightEdgeMk fid sap dap dep arr kit cap cost).target =
      (demandEdgeMk g0 fid2 dap arr kit r pen).source ∧
    (flightEdgeMk fid sap dap dep arr kit cap cost).target =
      (processingEdgeMk dap arr pt kit).source ∧
    (∀ (A : List (String × Airport)) (M : List (String × AircraftType))
        (fs : List FlightInfo) (inv : List ((String × KitType) × ℕ))
        (H : ℕ) (d hr : Int),
      ∀ e ∈ (build_network A M fs inv H d hr).edges,
        e.edgeType = .flight →
        ∃ ap t k, e.target = NodeId.airport ap t k ∧
          (∀ e2 ∈ (build_network A M fs inv H d hr).edges,
            e2.edgeType = .processing →
            e2.source = NodeId.airport ap t k → e2.source = e.target)) := by
  refine ⟨rfl, rfl, rfl, ?_⟩
  intro A M fs inv H d hr e he ht
  rw [(build_network_edges A M fs inv H d hr).1] at he
  simp only [List.mem_append] at he
  rcases he with ((((h | h) | h) | h) | h)
  · rw [List.mem_flatMap] at h
    obtain ⟨p, _, hp⟩ := h
    rw [(mem_invEdgesFor hp).1] at ht; cases ht
  · rw [List.mem_flatMap] at h
    obtain ⟨t, _, h⟩ := h
    rw [List.mem_flatMap] at h
    obtain ⟨p, _, h⟩ := h
    rw [List.mem_flatMap] at h
    obtain ⟨k, _, h⟩ := h
    rw [(mem_storageEdgesFor h).1] at ht; cases ht
  · rw [List.mem_flatMap] at h
    obtain ⟨f, _, h⟩ := h
    obtain ⟨-, kit2, h⟩ := mem_flightEdgesForFlight h
    rcases mem_flightKitEdges h with ⟨-, -, -, htg, -⟩ | ⟨h1, -⟩
    · refine ⟨f.dest, f.arrival_hour - (d * 24 + hr), kit2, htg, ?_⟩
      intro e2 _ _ hsrc
      rw [hsrc, htg]
    · rw [h1] at ht; cases ht
  · rw [List.mem_flatMap] at h
    obtain ⟨f, _, h⟩ := h
    rw [(mem_demandEdgesFor h).1] at ht; cases ht
  · rw [List.mem_flatMap] at h
    obtain ⟨k, _, h⟩ := h
    rw [(mem_purchaseEdgesFor h).2] at ht; cases ht

/-- Witness for C3 (amended) at the concrete graph `gC3`: its ECONOMY
flight edge ends at an ordinary airport node. -/
theorem C3_flight_target_nodes_witness :
    ∃ ap t k,
      (flightEdgeMk "F1" "A" "B" 0 1 KitType.ECONOMY 100 (mkRat 151 10)).target =
        NodeId.airport ap t k :=
  have hmem :
      flightEdgeMk "F1" "A" "B" 0 1 KitType.ECONOMY 100 (mkRat 151 10) ∈
        gC3.edges := by with_unfolding_all decide
  match (C3_flight_target_nodes "F1" "F1" "A" "B" 0 1 .ECONOMY 100
      (mkRat 151 10) 10 0 0 0 2 (Graph.mk 4 [] [] none none)).2.2.2
      [("A", apStd), ("B", apStd)] [("X", acStd)] [flC3] [] 4 0 0
      _ hmem rfl with
  | ⟨ap, t, k, h, _⟩ => ⟨ap, t, k, h⟩

/-- C3 counterexample: in `gC3`, the ECONOMY flight edge's target node
`(B, 1, ECONOMY)` is the source of an ordinary storage edge to
`(B, 2, ECONOMY)` — one hour later, while processing takes until hour
3 — so the arrival node is NOT a FROZEN node whose only outgoing edge
is the processing edge: the just-arrived kit can immediately feed the
storage (AVAILABLE) lane at the arrival hour. -/
theorem C3_counterexample :
    ∃ fe ∈ gC3.edges, fe.edgeType = .flight ∧
      fe.target = NodeId.airport "B" 1 .ECONOMY ∧
      (∃ se ∈ gC3.edges, se.edgeType = .storage ∧
        se.source = fe.target ∧
        se.target = NodeId.airport "B" 2 .ECONOMY) ∧
      (∃ pe ∈ gC3.edges, pe.edgeType = .processing ∧
        pe.source = fe.target ∧
        pe.target = NodeId.airport "B" 3 .ECONOMY) := by
  with_unfolding_all decide

/-! ### C1: balancing and the dummy edge -/

/-- A flight whose aircraft type is unresolvable and whose ECONOMY
demand is 1 (it produces a demand edge but no flight edge). -/
def flC1 : FlightInfo :=
  { id := "F1", source := "A", dest := "B", aircraft := "X",
    departure_hour := 0, arrival_hour := 0, distance := 1,
    fuel_cost_per_km := mkRat 1 2,
    passengers := fun k => match k with | .ECONOMY => 1 | _ => 0 }

/-- Built graph with total supply 2 (inventory) and one demand edge of
capacity 1: supply strictly exceeds declared demand. -/
def gC1 : Graph :=
  build_network [("A", apStd)] [] [flC1] [(("A", KitType.ECONOMY), 2)] 1 0 0

/-- The backend answer the OR-Tools contract forces on an unbalanced
instance. -/
def resUnbal : BackendResult :=
  { bstatus := .UNBALANCED, flows := [], optCost := 0 }

/-- C1 counterexample: for the built graph `gC1` the total supply (2)
strictly exceeds the total demand-edge capacity (1), yet the solver
adds NO dummy Source→Sink edge, installs supply 2 at Source and demand
1 at Sink (an unbalanced problem), and — by the backend's contract —
returns status UNBALANCED. -/
theorem C1_counterexample :
    total_supply_of (solverPrepare gC1).edges = some 2 ∧
    total_demand_of (solverPrepare gC1).edges = some 1 ∧
    (∀ e ∈ (solverPrepare gC1).edges, e.edgeType ≠ .dummy) ∧
    demand_adjusted (solverPrepare gC1).edges = some 1 ∧
    MCFBackendSpec (mcfArcs (solverPrepare gC1)) 2 1 resUnbal ∧
    mcfSolve gC1 resUnbal = .ok { status := .UNBALANCED } ∧
    SolStatus.UNBALANCED ≠ SolStatus.OPTIMAL := by
  refine ⟨by with_unfolding_all decide, by with_unfolding_all decide,
    by with_unfolding_all decide, by with_unfolding_all decide, ?_,
    by with_unfolding_all rfl, by decide⟩
  refine ⟨fun _ => rfl, fun h => absurd h (by decide),
    fun h => absurd h (by decide)⟩

/-- C1 (amended): the dummy Source→Sink edge is added only when the
graph has NO demand edges at all; in that case the sink demand is set
equal to the total supply, so the instance is balanced.  When demand
edges exist the graph is handed over unchanged — excess supply is NOT
bled off — and the sink demand is the raw total demand. -/
theorem solverPrepare_edges (g : Graph) :
    (solverPrepare g).edges =
      g.edges ++ (if hasDemandEdge g = true then [] else [dummyEdge]) := by
  unfold solverPrepare
  have hd : hasDemandEdge (getSink (getSource g).1).1 = hasDemandEdge g := by
    unfold hasDemandEdge
    rw [getSink_fst_edges, getSource_fst_edges]
  dsimp only
  rw [hd]
  by_cases h : hasDemandEdge g = true
  · rw [if_pos h, if_pos h, getSink_fst_edges, getSource_fst_edges,
      List.append_nil]
  · rw [if_neg h, if_neg h]
    show (getSink (getSource g).1).1.edges ++ [dummyEdge] = _
    rw [getSink_fst_edges, getSource_fst_edges]

theorem C1_dummy_only_without_demand (g : Graph) :
    (hasDemandEdge g = true → (solverPrepare g).edges = g.edges) ∧
    (hasDemandEdge g = false →
      (solverPrepare g).edges = g.edges ++ [dummyEdge] ∧
      demand_adjusted (solverPrepare g).edges =
        total_supply_of (solverPrepare g).edges) := by
  constructor
  · intro h
    rw [solverPrepare_edges, if_pos h, List.append_nil]
  · intro h
    have hprep : (solverPrepare g).edges = g.edges ++ [dummyEdge] := by
      rw [solverPrepare_edges, if_neg (by rw [h]; exact Bool.false_ne_true)]
    refine ⟨hprep, ?_⟩
    rw [hprep]
    have hnod : ∀ e ∈ g.edges, ¬ e.edgeType = .demand := by
      intro e he
      unfold hasDemandEdge at h
      rw [List.any_eq_false] at h
      have := h e he
      simpa using this
    have hdem : total_demand_of (g.edges ++ [dummyEdge]) = some 0 := by
      unfold total_demand_of
      rw [List.filter_append]
      have h1 : g.edges.filter
          (fun e => decide (e.edgeType = EdgeType.demand)) = [] := by
        rw [List.filter_eq_nil_iff]
        intro e he
        simpa using hnod e he
      have h2 : [dummyEdge].filter
          (fun e => decide (e.edgeType = EdgeType.demand)) = [] := by decide
      rw [h1, h2]
      rfl
    unfold demand_adjusted
    rw [hdem]
    by_cases hs : capPos (total_supply_of (g.edges ++ [dummyEdge])) = true
    · rw [if_pos ⟨rfl, hs⟩]
    · rw [if_neg (by tauto)]
      cases hcap : total_supply_of (g.edges ++ [dummyEdge]) with
      | none => rw [hcap] at hs; exact absurd rfl hs
      | some n =>
          rw [hcap] at hs
          have : n = 0 := by
            by_contra hn
            exact hs (by simp [capPos]; omega)
          rw [this]

/-- Witness for C1 (amended): on `gC1` (which has a demand edge) the
prepared graph is unchanged; on the demand-free graph `gC3` the dummy
edge is appended and the instance is balanced. -/
theorem C1_dummy_only_without_demand_witness :
    (solverPrepare gC1).edges = gC1.edges ∧
    (solverPrepare gC3).edges = gC3.edges ++ [dummyEdge] ∧
    demand_adjusted (solverPrepare gC3).edges =
      total_supply_of (solverPrepare gC3).edges :=
  ⟨(C1_dummy_only_without_demand gC1).1 (by with_unfolding_all decide),
   ((C1_dummy_only_without_demand gC3).2 (by with_unfolding_all decide)).1,
   ((C1_dummy_only_without_demand gC3).2 (by with_unfolding_all decide)).2⟩

/-! ### C2: fallback behaviour of solve_optimization -/

theorem greedyStep_status (st : (NodeId → Cap) × Solution) (e : Edge) :
    (greedyStep st e).2.status = st.2.status := by
  unfold greedyStep
  dsimp only
  split
  · split
    · split <;> rfl
    · split
      · split <;> rfl
      · rfl
  · rfl

theorem greedyFold_status (l : List Edge) :
    ∀ st : (NodeId → Cap) × Solution,
      (l.foldl greedyStep st).2.status = st.2.status := by
  induction l with
  | nil => intro st; rfl
  | cons e t ih =>
      intro st
      rw [List.foldl_cons, ih (greedyStep st e), greedyStep_status]

/-- The greedy solver always reports status GREEDY. -/
theorem greedySolve_status (g : Graph) : (greedySolve g).status = .GREEDY := by
  unfold greedySolve
  cases g.source_node <;> exact greedyFold_status _ _

/-- C2 (amended): `solve_optimization` retries with the greedy solver
only when the exact attempt raises `ImportError`; whatever solution the
exact solver returns — including status ERROR, INFEASIBLE or
UNBALANCED — is passed through to the caller unchanged, and the
greedy fallback, when taken, reports status GREEDY.  (No time limit is
enforced: the 30-second argument is accepted but never used.) -/
theorem C2_fallback_only_on_import_error (g : Graph) (res : BackendResult) :
    solve_optimization g (.backend res) = mcfSolve g res ∧
    solve_optimization g .importError = .ok (greedySolve g) ∧
    (greedySolve g).status = .GREEDY :=
  ⟨rfl, rfl, greedySolve_status g⟩

/-- Witness for C2 (amended) at the concrete graph `gC1`. -/
theorem C2_fallback_only_on_import_error_witness :
    solve_optimization gC1 (.backend resUnbal) = mcfSolve gC1 resUnbal ∧
    solve_optimization gC1 .importError = .ok (greedySolve gC1) ∧
    (greedySolve gC1).status = .GREEDY :=
  C2_fallback_only_on_import_error gC1 resUnbal

/-- C2 counterexample: on the built graph `gC1` the exact solver — by
the backend's contract — produces an UNBALANCED solution, and
`solve_optimization` hands exactly that solution to the caller: the
cycle's decisions come from the failed exact attempt, not from a
GREEDY-status retry. -/
theorem C2_counterexample :
    MCFBackendSpec (mcfArcs (solverPrepare gC1)) 2 1 resUnbal ∧
    total_supply_of (solverPrepare gC1).edges = some 2 ∧
    demand_adjusted (solverPrepare gC1).edges = some 1 ∧
    solve_optimization gC1 (.backend resUnbal) =
      .ok { status := .UNBALANCED } ∧
    SolStatus.UNBALANCED ≠ SolStatus.GREEDY := by
  refine ⟨⟨fun _ => rfl, fun h => absurd h (by decide),
      fun h => absurd h (by decide)⟩,
    by with_unfolding_all decide, by with_unfolding_all decide,
    by with_unfolding_all rfl, by decide⟩

/-! ### C10: integer cost scaling -/

/-- A one-edge graph whose edge cost is 0.0019: `int(0.0019 * 1000)`
truncates 1.9 to 1, while round-to-nearest gives 2. -/
def gC10 : Graph :=
  { planning_horizon := 1,
    nodes := [.airport "A" 0 .ECONOMY, .sink],
    edges := [{ source := .airport "A" 0 .ECONOMY, target := .sink,
                capacity := some 1, cost := mkRat 19 10000,
                edgeType := .demand, mKit := some .ECONOMY }],
    source_node := none, sink_node := some .sink }

/-- C10 counterexample: the integer cost handed to the backend for an
edge of cost 0.0019 is `int(1.9) = 1`, not the nearest integer 2. -/
theorem C10_counterexample :
    (mcfArcs (solverPrepare gC10)).map Arc.cost = [1] ∧
    round ((mkRat 19 10000) * 1000) = 2 ∧
    (1 : ℤ) ≠ 2 := by
  refine ⟨by with_unfolding_all decide, ?_, by decide⟩
  have h : (mkRat 19 10000) * 1000 = (19 : ℚ) / 10 := by norm_num [mkRat]
  rw [h]
  norm_num [round_eq]

/-- C10 (amended): every edge is handed to the integer backend with
capacity `int(capacity)` (999999 for infinity) and cost equal to
`edge.cost * 1000` truncated toward zero — the floor, for the
nonnegative costs the builder produces, which differs from the exact
scaled cost by less than 1 — and the reported total cost is the
backend's optimal cost divided by 1000 exactly. -/
theorem C10_cost_scaling :
    (∀ g : Graph, ∀ e ∈ g.edges,
      toArc e ∈ mcfArcs g ∧
      (toArc e).cost = pyTrunc (e.cost * 1000) ∧
      (toArc e).cap = intCapacity e.capacity) ∧
    (∀ q : ℚ, 0 ≤ q →
      pyTrunc q = ⌊q⌋ ∧ ((pyTrunc q : ℚ) ≤ q ∧ q < (pyTrunc q : ℚ) + 1)) ∧
    (∀ (g : Graph) (res : BackendResult) (S D : ℕ),
      total_supply_of (solverPrepare g).edges = some S →
      demand_adjusted (solverPrepare g).edges = some D →
      res.bstatus = .OPTIMAL →
      ∃ sol, mcfSolve g res = .ok sol ∧
        sol.total_cost = (res.optCost : ℚ) / 1000 ∧
        sol.status = .OPTIMAL) := by
  refine ⟨?_, ?_, ?_⟩
  · intro g e he
    exact ⟨List.mem_map_of_mem toArc he, rfl, rfl⟩
  · intro q hq
    have hfl : pyTrunc q = ⌊q⌋ := if_pos hq
    refine ⟨hfl, ?_, ?_⟩
    · rw [hfl]; exact Int.floor_le q
    · rw [hfl]; exact Int.lt_floor_add_one q
  · intro g res S D hS hD hb
    unfold mcfSolve
    dsimp only
    rw [hS, hD, hb]
    exact ⟨_, rfl, rfl, rfl⟩

/-- Witness for C10 (amended): a concrete OPTIMAL backend answer with
cost 5 yields a reported total cost of exactly 5/1000. -/
theorem C10_cost_scaling_witness :
    ∃ sol,
      mcfSolve gC10 { bstatus := .OPTIMAL, flows := [1], optCost := 5 } =
        .ok sol ∧
      sol.total_cost = ((5 : ℤ) : ℚ) / 1000 ∧
      sol.status = .OPTIMAL :=
  C10_cost_scaling.2.2 gC10 { bstatus := .OPTIMAL, flows := [1], optCost := 5 }
    0 1 (by with_unfolding_all decide) (by with_unfolding_all decide) rfl

/-! ### C5: immediate-decision extraction -/

theorem alookup_cons {κ β : Type} [DecidableEq κ] (p : κ × β)
    (t : List (κ × β)) (k : κ) :
    alookup (p :: t) k = if p.1 = k then some p.2 else alookup t k := rfl

theorem alookup_aset_self {κ β : Type} [DecidableEq κ] (l : List (κ × β))
    (k : κ) (v : β) : alookup (aset l k v) k = some v := by
  induction l with
  | nil => simp [aset, alookup]
  | cons p t ih =>
      unfold aset
      by_cases hp : p.1 = k
      · rw [if_pos hp, alookup_cons, if_pos rfl]
      · rw [if_neg hp, alookup_cons, if_neg hp]
        exact ih

theorem alookup_aset_ne {κ β : Type} [DecidableEq κ] (l : List (κ × β))
    (k : κ) (v : β) (k2 : κ) (h : ¬ k = k2) :
    alookup (aset l k v) k2 = alookup l k2 := by
  induction l with
  | nil =>
      show alookup [(k, v)] k2 = alookup [] k2
      rw [alookup_cons, if_neg h]
  | cons p t ih =>
      unfold aset
      by_cases hp : p.1 = k
      · rw [if_pos hp, alookup_cons, alookup_cons,
          if_neg h, if_neg (by rw [hp]; exact h)]
      · rw [if_neg hp, alookup_cons, alookup_cons, ih]

/-- One step of the flight-load extraction loop. -/
def loadsStep (fi : List (String × Option Int)) (cur : Int)
    (loads : List (String × List (KitType × Cap)))
    (p : String × List (KitType × Cap)) :
    List (String × List (KitType × Cap)) :=
  match alookup fi p.1 with
  | some dep => if dep = some cur then aset loads p.1 p.2 else loads
  | none => loads

/-- One step of the purchase extraction loop. -/
def purchStep (purch : List (KitType × ℕ)) (p : Edge × Cap) :
    List (KitType × ℕ) :=
  if p.1.edgeType = .purchase then
    match p.1.mKit with
    | some k =>
        let quantity := quantityOf p.2
        if 0 < quantity then aset purch k (agetD purch k 0 + quantity)
        else purch
    | none => purch
  else purch

theorem extract_immediate_decisions_eq (fi : List (String × Option Int))
    (d hr : Int) (sol : Solution) :
    extract_immediate_decisions fi d hr sol =
      (sol.kit_loads.foldl (loadsStep fi (d * 24 + hr)) [],
       sol.flow.foldl purchStep []) := rfl

/-- The total flow on purchase edges of kit `k` recorded in a solution
flow list. -/
def purchasesTotalF : List (Edge × Cap) → KitType → ℕ
  | [], _ => 0
  | p :: t, k =>
      (if p.1.edgeType = .purchase ∧ p.1.mKit = some k
       then quantityOf p.2 else 0) + purchasesTotalF t k

theorem purchasesTotalF_cons (p : Edge × Cap) (t : List (Edge × Cap))
    (k : KitType) :
    purchasesTotalF (p :: t) k =
      (if p.1.edgeType = .purchase ∧ p.1.mKit = some k
       then quantityOf p.2 else 0) + purchasesTotalF t k := rfl

/-- Combination of an accumulator entry with a remaining total, as the
purchase loop produces it. -/
def optAdd (o : Option ℕ) (t : ℕ) : Option ℕ :=
  match o with
  | none => if t = 0 then none else some t
  | some a => some (a + t)

theorem purchFold_lookup (k : KitType) :
    ∀ (F : List (Edge × Cap)) (acc : List (KitType × ℕ)),
      alookup (F.foldl purchStep acc) k =
        optAdd (alookup acc k) (purchasesTotalF F k) := by
  intro F
  induction F with
  | nil =>
      intro acc
      rw [List.foldl_nil]
      show alookup acc k = optAdd (alookup acc k) 0
      cases h : alookup acc k with
      | none => simp [optAdd]
      | some a => simp [optAdd]
  | cons p t ih =>
      intro acc
      rw [List.foldl_cons, ih, purchasesTotalF_cons]
      by_cases h1 : p.1.edgeType = EdgeType.purchase
      · cases hk : p.1.mKit with
        | none =>
            have hcond : ¬ (p.1.edgeType = EdgeType.purchase ∧
                (none : Option KitType) = some k) := fun hc => by cases hc.2
            rw [if_neg hcond, Nat.zero_add]
            have hstep : purchStep acc p = acc := by
              unfold purchStep
              rw [if_pos h1, hk]
            rw [hstep]
        | some k2 =>
            by_cases hq : 0 < quantityOf p.2
            · have hstep : purchStep acc p =
                  aset acc k2 (agetD acc k2 0 + quantityOf p.2) := by
                unfold purchStep
                rw [if_pos h1, hk]
                show (if 0 < quantityOf p.2
                  then aset acc k2 (agetD acc k2 0 + quantityOf p.2)
                  else acc) = _
                rw [if_pos hq]
              rw [hstep]
              by_cases hkk : k2 = k
              · cases hkk
                rw [alookup_aset_self, if_pos ⟨h1, rfl⟩]
                unfold agetD
                cases ha : alookup acc k with
                | none =>
                    show some (Option.getD none 0 + quantityOf p.2 +
                        purchasesTotalF t k) =
                      if quantityOf p.2 + purchasesTotalF t k = 0 then none
                      else some (quantityOf p.2 + purchasesTotalF t k)
                    rw [if_neg (show
                      ¬ (quantityOf p.2 + purchasesTotalF t k = 0) by omega)]
                    show some (0 + quantityOf p.2 + purchasesTotalF t k) = _
                    rw [Nat.zero_add]
                | some a =>
                    show some (Option.getD (some a) 0 + quantityOf p.2 +
                        purchasesTotalF t k) =
                      some (a + (quantityOf p.2 + purchasesTotalF t k))
                    show some (a + quantityOf p.2 + purchasesTotalF t k) =
                      some (a + (quantityOf p.2 + purchasesTotalF t k))
                    rw [Nat.add_assoc]
              · have hcond : ¬ (p.1.edgeType = EdgeType.purchase ∧
                    some k2 = some k) :=
                  fun hc => hkk (Option.some.inj hc.2)
                rw [alookup_aset_ne _ _ _ _ hkk, if_neg hcond, Nat.zero_add]
            · have hq0 : quantityOf p.2 = 0 := by omega
              have hstep : purchStep acc p = acc := by
                unfold purchStep
                rw [if_pos h1, hk]
                show (if 0 < quantityOf p.2
                  then aset acc k2 (agetD acc k2 0 + quantityOf p.2)
                  else acc) = acc
                rw [if_neg hq]
              rw [hstep]
              by_cases hkk : k2 = k
              · rw [if_pos ⟨h1, by rw [hkk]⟩, hq0, Nat.zero_add]
              · have hcond : ¬ (p.1.edgeType = EdgeType.purchase ∧
                    some k2 = some k) :=
                  fun hc => hkk (Option.some.inj hc.2)
                rw [if_neg hcond, Nat.zero_add]
      · have hcond : ¬ (p.1.edgeType = EdgeType.purchase ∧
            p.1.mKit = some k) := fun hc => h1 hc.1
        rw [if_neg hcond, Nat.zero_add]
        have hstep : purchStep acc p = acc := by
          unfold purchStep
          rw [if_neg h1]
        rw [hstep]

theorem loadsFold_notmem (fi : List (String × Option Int)) (cur : Int)
    (fid : String) :
    ∀ (L : List (String × List (KitType × Cap)))
      (acc : List (String × List (KitType × Cap))),
      fid ∉ L.map Prod.fst →
      alookup (L.foldl (loadsStep fi cur) acc) fid = alookup acc fid := by
  intro L
  induction L with
  | nil => intro acc _; rfl
  | cons p t ih =>
      intro acc hmem
      rw [List.map_cons] at hmem
      have hne : fid ≠ p.1 := fun h => hmem (by rw [h]; exact .head _)
      have hmem2 : fid ∉ t.map Prod.fst := fun h => hmem (.tail _ h)
      rw [List.foldl_cons, ih _ hmem2]
      unfold loadsStep
      split
      · split
        · rw [alookup_aset_ne _ _ _ _ (fun hh => hne hh.symm)]
        · rfl
      · rfl

theorem loadsFold_mem (fi : List (String × Option Int)) (cur : Int) :
    ∀ (L : List (String × List (KitType × Cap)))
      (acc : List (String × List (KitType × Cap)))
      (fid : String) (kits : List (KitType × Cap)),
      (L.map Prod.fst).Nodup →
      (fid, kits) ∈ L →
      alookup fi fid = some (some cur) →
      alookup (L.foldl (loadsStep fi cur) acc) fid = some kits := by
  intro L
  induction L with
  | nil => intro _ _ _ hnd hmem _; cases hmem
  | cons p t ih =>
      intro acc fid kits hnd hmem hcond
      rw [List.map_cons, List.nodup_cons] at hnd
      rw [List.foldl_cons]
      rcases List.mem_cons.mp hmem with heq | hmem2
      · cases heq
        have hnm : fid ∉ t.map Prod.fst := hnd.1
        rw [loadsFold_notmem fi cur fid t _ hnm]
        show alookup (loadsStep fi cur acc (fid, kits)) fid = some kits
        unfold loadsStep
        rw [show alookup fi (fid, kits).1 = some (some cur) from hcond]
        show alookup
          (if (some cur : Option Int) = some cur
           then aset acc fid kits else acc) fid = some kits
        rw [if_pos rfl, alookup_aset_self]
      · exact ih _ fid kits hnd.2 hmem2 hcond

theorem loadsFold_some (fi : List (String × Option Int)) (cur : Int) :
    ∀ (L : List (String × List (KitType × Cap)))
      (acc : List (String × List (KitType × Cap)))
      (fid : String) (kits : List (KitType × Cap)),
      alookup (L.foldl (loadsStep fi cur) acc) fid = some kits →
      alookup acc fid = some kits ∨
        ((fid, kits) ∈ L ∧ alookup fi fid = some (some cur)) := by
  intro L
  induction L with
  | nil => intro acc fid kits h; exact .inl h
  | cons p t ih =>
      intro acc fid kits h
      rw [List.foldl_cons] at h
      rcases ih _ fid kits h with hacc | ⟨hmem, hcond⟩
      · unfold loadsStep at hacc
        split at hacc
        · rename_i dep heq
          split at hacc
          · rename_i hd
            by_cases hfp : p.1 = fid
            · rw [← hfp] at hacc
              rw [alookup_aset_self] at hacc
              cases hacc
              subst hd
              refine .inr ⟨?_, by rw [← hfp]; exact heq⟩
              have : p = (fid, p.2) := by
                cases p; simp_all
              rw [← hfp]
              cases p
              exact .head _
            · rw [alookup_aset_ne _ _ _ _ hfp] at hacc
              exact .inl hacc
          · exact .inl hacc
        · exact .inl hacc
      · exact .inr ⟨.tail _ hmem, hcond⟩

/-- C5: `extract_immediate_decisions` returns flight loads for exactly
those flights of the solution whose recorded absolute departure hour
equals `current_day * 24 + current_hour` — flows of flights departing
at any other hour contribute nothing — and returns, per kit type, the
sum of the positive flows on all purchase edges of the solution,
regardless of delivery time. -/
theorem C5_extract_immediate_decisions (fi : List (String × Option Int))
    (d hr : Int) (sol : Solution)
    (hnd : (sol.kit_loads.map Prod.fst).Nodup) :
    (∀ (fid : String) (kits : List (KitType × Cap)),
      alookup (extract_immediate_decisions fi d hr sol).1 fid = some kits ↔
        ((fid, kits) ∈ sol.kit_loads ∧
          alookup fi fid = some (some (d * 24 + hr)))) ∧
    (∀ k : KitType,
      alookup (extract_immediate_decisions fi d hr sol).2 k =
        (if purchasesTotalF sol.flow k = 0 then none
         else some (purchasesTotalF sol.flow k))) := by
  rw [extract_immediate_decisions_eq]
  constructor
  · intro fid kits
    constructor
    · intro h
      rcases loadsFold_some fi (d * 24 + hr) sol.kit_loads [] fid kits h with
        hacc | h2
      · cases hacc
      · exact h2
    · rintro ⟨hmem, hcond⟩
      exact loadsFold_mem fi (d * 24 + hr) sol.kit_loads [] fid kits hnd
        hmem hcond
  · intro k
    rw [purchFold_lookup]
    rfl

/-- Witness for C5 at a concrete solution: flight F1 departs at the
current absolute hour 5 and is kept; F2 departs at hour 7 and is
dropped; the positive purchase-edge flow for ECONOMY (4) is returned. -/
theorem C5_extract_immediate_decisions_witness :
    alookup (extract_immediate_decisions
        [("F1", some 5), ("F2", some 7)] 0 5
        { status := .OPTIMAL,
          kit_loads := [("F1", [(KitType.ECONOMY, some 3)]),
                        ("F2", [(KitType.ECONOMY, some 2)])],
          flow := [({ source := .source,
                      target := .airport "HUB1" 6 .ECONOMY,
                      capacity := some 1000, cost := 10,
                      edgeType := .purchase, mKit := some .ECONOMY },
                    some 4)] }).1 "F1" =
      some [(KitType.ECONOMY, some 3)] ∧
    alookup (extract_immediate_decisions
        [("F1", some 5), ("F2", some 7)] 0 5
        { status := .OPTIMAL,
          kit_loads := [("F1", [(KitType.ECONOMY, some 3)]),
                        ("F2", [(KitType.ECONOMY, some 2)])],
          flow := [({ source := .source,
                      target := .airport "HUB1" 6 .ECONOMY,
                      capacity := some 1000, cost := 10,
                      edgeType := .purchase, mKit := some .ECONOMY },
                    some 4)] }).2 KitType.ECONOMY = some 4 := by
  have h := C5_extract_immediate_decisions
    [("F1", some 5), ("F2", some 7)] 0 5
    { status := .OPTIMAL,
      kit_loads := [("F1", [(KitType.ECONOMY, some 3)]),
                    ("F2", [(KitType.ECONOMY, some 2)])],
      flow := [({ source := .source,
                  target := .airport "HUB1" 6 .ECONOMY,
                  capacity := some 1000, cost := 10,
                  edgeType := .purchase, mKit := some .ECONOMY },
                some 4)] }
    (by with_unfolding_all decide)
  refine ⟨(h.1 "F1" [(KitType.ECONOMY, some 3)]).mpr
    ⟨by with_unfolding_all decide, by with_unfolding_all decide⟩, ?_⟩
  rw [h.2 KitType.ECONOMY]
  with_unfolding_all decide

/-! ### C7: conditions for flight-edge creation -/

theorem mem_flightKitEdges_lookups {e : Edge} {H : ℕ}
    {A : List (String × Airport)} {M : List (String × AircraftType)}
    {cur : Int} {f : FlightInfo} {kit : KitType}
    (h : e ∈ flightKitEdges H A M cur f kit) :
    (alookup A f.source).isSome ∧ (alookup A f.dest).isSome ∧
    (alookup M f.aircraft).isSome := by
  unfold flightKitEdges at h
  revert h
  cases h1 : alookup A f.source
  case none =>
    cases h2 : alookup A f.dest <;> (intro h; simp at h)
  case some =>
    cases h2 : alookup A f.dest
    case none => intro h; simp at h
    case some =>
      cases h3 : alookup M f.aircraft
      case none => intro h; simp at h
      case some => intro _; exact ⟨rfl, rfl, rfl⟩

theorem flight_edge_in_flightKitEdges {H : ℕ}
    {A : List (String × Airport)} {M : List (String × AircraftType)}
    {cur : Int} {f : FlightInfo} (kit : KitType)
    {sap dap : Airport} {ac : AircraftType}
    (hsap : alookup A f.source = some sap)
    (hdap : alookup A f.dest = some dap)
    (hac : alookup M f.aircraft = some ac)
    (hdep : f.departure_hour - cur < (H : Int))
    (harr : f.arrival_hour - cur < (H : Int)) :
    flightEdgeMk f.id f.source f.dest (f.departure_hour - cur)
      (f.arrival_hour - cur) kit (aircraftCapacityFor ac kit)
      (agetD sap.loading_cost kit 5 +
        f.distance * f.fuel_cost_per_km * kitWeight kit +
        agetD dap.processing_cost kit 10) ∈
      flightKitEdges H A M cur f kit := by
  unfold flightKitEdges
  rw [hsap, hdap, hac]
  apply List.mem_append_left
  rw [if_neg (by omega)]
  exact .head _

/-- C7: a flight edge for flight id `fid` and kit `k` exists in the
built graph iff the flight list contains a flight with that id whose
relative departure hour is ≥ 0, whose relative departure and arrival
hours are both strictly below the horizon, and whose source airport,
destination airport and aircraft type all resolve in the configured
maps.  A flight failing any condition contributes no flight edge, and —
since `build_network` is a total function — never aborts construction. -/
theorem C7_flight_edge_conditions (A : List (String × Airport))
    (M : List (String × AircraftType)) (fs : List FlightInfo)
    (inv : List ((String × KitType) × ℕ)) (H : ℕ) (d hr : Int)
    (fid : String) (k : KitType) :
    (∃ e ∈ (build_network A M fs inv H d hr).edges,
        e.edgeType = .flight ∧ e.mFlightId = some fid ∧
        e.mKit = some k) ↔
    (∃ f ∈ fs, f.id = fid ∧
        0 ≤ f.departure_hour - (d * 24 + hr) ∧
        f.departure_hour - (d * 24 + hr) < (H : Int) ∧
        f.arrival_hour - (d * 24 + hr) < (H : Int) ∧
        (alookup A f.source).isSome ∧ (alookup A f.dest).isSome ∧
        (alookup M f.aircraft).isSome) := by
  constructor
  · rintro ⟨e, he, ht, hfid, hkit⟩
    rw [(build_network_edges A M fs inv H d hr).1] at he
    simp only [List.mem_append] at he
    rcases he with ((((h | h) | h) | h) | h)
    · rw [List.mem_flatMap] at h
      obtain ⟨p, _, hp⟩ := h
      rw [(mem_invEdgesFor hp).1] at ht; cases ht
    · rw [List.mem_flatMap] at h
      obtain ⟨t, _, h⟩ := h
      rw [List.mem_flatMap] at h
      obtain ⟨p, _, h⟩ := h
      rw [List.mem_flatMap] at h
      obtain ⟨k2, _, h⟩ := h
      rw [(mem_storageEdgesFor h).1] at ht; cases ht
    · rw [List.mem_flatMap] at h
      obtain ⟨f, hf, h⟩ := h
      obtain ⟨hdep0, kit, h⟩ := mem_flightEdgesForFlight h
      obtain ⟨hl1, hl2, hl3⟩ := mem_flightKitEdges_lookups h
      rcases mem_flightKitEdges h with
        ⟨-, -, -, -, hfl, hkt, hd2, ha2⟩ | ⟨h1, -⟩
      · refine ⟨f, hf, ?_, by omega, hd2, ha2, hl1, hl2, hl3⟩
        rw [hfl] at hfid
        exact Option.some.inj hfid
      · rw [h1] at ht; cases ht
    · rw [List.mem_flatMap] at h
      obtain ⟨f, _, h⟩ := h
      rw [(mem_demandEdgesFor h).1] at ht; cases ht
    · rw [List.mem_flatMap] at h
      obtain ⟨k2, _, h⟩ := h
      rw [(mem_purchaseEdgesFor h).2] at ht; cases ht
  · rintro ⟨f, hf, hid, hdep0, hdep, harr, hl1, hl2, hl3⟩
    obtain ⟨sap, hsap⟩ := Option.isSome_iff_exists.mp hl1
    obtain ⟨dap, hdap⟩ := Option.isSome_iff_exists.mp hl2
    obtain ⟨ac, hac⟩ := Option.isSome_iff_exists.mp hl3
    refine ⟨flightEdgeMk f.id f.source f.dest
      (f.departure_hour - (d * 24 + hr)) (f.arrival_hour - (d * 24 + hr)) k
      (aircraftCapacityFor ac k)
      (agetD sap.loading_cost k 5 +
        f.distance * f.fuel_cost_per_km * kitWeight k +
        agetD dap.processing_cost k 10), ?_, rfl, congrArg some hid, rfl⟩
    rw [(build_network_edges A M fs inv H d hr).1]
    simp only [List.mem_append]
    left; left; right
    rw [List.mem_flatMap]
    refine ⟨f, hf, ?_⟩
    unfold flightEdgesForFlight
    rw [if_neg (by omega)]
    rw [List.mem_flatMap]
    exact ⟨k, kitTypesList_complete k,
      flight_edge_in_flightKitEdges k hsap hdap hac hdep harr⟩

/-- Witness for C7: in the inputs of `gC3` flight F1 meets every
condition, so an ECONOMY flight edge exists; with an empty aircraft
map (the inputs of `gC1`) no flight edge is ever created. -/
theorem C7_flight_edge_conditions_witness :
    (∃ e ∈ gC3.edges, e.edgeType = .flight ∧
        e.mFlightId = some "F1" ∧ e.mKit = some KitType.ECONOMY) ∧
    ¬ (∃ e ∈ gC1.edges, e.edgeType = .flight ∧
        e.mFlightId = some "F1" ∧ e.mKit = some KitType.ECONOMY) := by
  constructor
  · exact (C7_flight_edge_conditions [("A", apStd), ("B", apStd)]
      [("X", acStd)] [flC3] [] 4 0 0 "F1" KitType.ECONOMY).mpr
      ⟨flC3, .head _, rfl, by decide, by decide, by decide,
        by decide, by decide, by decide⟩
  · intro h
    have := (C7_flight_edge_conditions [("A", apStd)] [] [flC1]
      [(("A", KitType.ECONOMY), 2)] 1 0 0 "F1" KitType.ECONOMY).mp h
    obtain ⟨f, hf, -, -, -, -, -, -, hac⟩ := this
    rw [List.mem_singleton] at hf
    subst hf
    simp [alookup] at hac

/-! ### C4: flow conservation -/

theorem capAdd_comm (a b : Cap) : capAdd a b = capAdd b a := by
  cases a <;> cases b <;> simp [capAdd, Nat.add_comm]

theorem capAdd_assoc (a b c : Cap) :
    capAdd (capAdd a b) c = capAdd a (capAdd b c) := by
  cases a <;> cases b <;> cases c <;> simp [capAdd, Nat.add_assoc]

theorem capAdd_zero_left (a : Cap) : capAdd (some 0) a = a := by
  cases a <;> simp [capAdd]

theorem capLE_min_right (a b : Cap) : capLE (capMin a b) b := by
  cases a <;> cases b <;> simp [capLE, capMin, capLeB]

theorem capAdd_capSub_cancel {a b : Cap} (h : capLE b a) :
    capAdd (capSub a b) b = a := by
  cases a with
  | none => cases b <;> simp [capSub, capAdd]
  | some x =>
      cases b with
      | none => simp [capLE, capLeB] at h
      | some y =>
          simp [capLE, capLeB] at h
          simp [capSub, capAdd]
          omega

theorem capLE_self_capAdd (a b : Cap) : capLE a (capAdd a b) := by
  cases a <;> cases b <;> simp [capLE, capAdd, capLeB]

/-- Flow into a node over a `(edge, flow)` list (capacity-valued). -/
def inflowC : List (Edge × Cap) → NodeId → Cap
  | [], _ => some 0
  | p :: t, n =>
      if p.1.target = n then capAdd p.2 (inflowC t n) else inflowC t n

/-- Flow out of a node over a `(edge, flow)` list (capacity-valued). -/
def outflowC : List (Edge × Cap) → NodeId → Cap
  | [], _ => some 0
  | p :: t, n =>
      if p.1.source = n then capAdd p.2 (outflowC t n) else outflowC t n

theorem inflowC_append_one (l : List (Edge × Cap)) (q : Edge × Cap)
    (n : NodeId) :
    inflowC (l ++ [q]) n =
      if q.1.target = n then capAdd (inflowC l n) q.2 else inflowC l n := by
  induction l with
  | nil =>
      by_cases h : q.1.target = n <;>
        simp [inflowC, h, capAdd_zero_left, capAdd_comm]
  | cons p t ih =>
      by_cases hp : p.1.target = n <;> by_cases hq : q.1.target = n <;>
        simp [inflowC, hp, hq, ih, capAdd_assoc, capAdd_comm,
          capAdd_zero_left]
      rw [← capAdd_assoc, ← capAdd_assoc, capAdd_comm q.2 p.2]

theorem outflowC_append_one (l : List (Edge × Cap)) (q : Edge × Cap)
    (n : NodeId) :
    outflowC (l ++ [q]) n =
      if q.1.source = n then capAdd (outflowC l n) q.2
      else outflowC l n := by
  induction l with
  | nil =>
      by_cases h : q.1.source = n <;>
        simp [outflowC, h, capAdd_zero_left, capAdd_comm]
  | cons p t ih =>
      by_cases hp : p.1.source = n <;> by_cases hq : q.1.source = n <;>
        simp [outflowC, hp, hq, ih, capAdd_assoc, capAdd_comm,
          capAdd_zero_left]
      rw [← capAdd_assoc, ← capAdd_assoc, capAdd_comm q.2 p.2]

/-- Flow into a node over an `(edge, nat-flow)` list. -/
def inflowE : List (Edge × ℕ) → NodeId → ℕ
  | [], _ => 0
  | p :: t, n => (if p.1.target = n then p.2 else 0) + inflowE t n

/-- Flow out of a node over an `(edge, nat-flow)` list. -/
def outflowE : List (Edge × ℕ) → NodeId → ℕ
  | [], _ => 0
  | p :: t, n => (if p.1.source = n then p.2 else 0) + outflowE t n

theorem foldl_append_filter {α β : Type} (c : α → Prop) [DecidablePred c]
    (m : α → β) :
    ∀ (l : List α) (acc : List β),
      l.foldl (fun fl p => if c p then fl ++ [m p] else fl) acc =
        acc ++ (l.filter (fun p => decide (c p))).map m := by
  intro l
  induction l with
  | nil => intro acc; simp
  | cons p t ih =>
      intro acc
      rw [List.foldl_cons]
      by_cases h : c p
      · rw [if_pos h, ih]
        simp [List.filter_cons, h]
      · rw [if_neg h, ih]
        simp [List.filter_cons, h]

theorem flowListOf_eq (pairs : List (Edge × ℕ)) :
    flowListOf pairs =
      (pairs.filter (fun p => decide (0 < p.2))).map
        (fun p => (p.1, (some p.2 : Cap))) := by
  unfold flowListOf
  rw [foldl_append_filter (fun p : Edge × ℕ => 0 < p.2)
    (fun p => (p.1, (some p.2 : Cap))) pairs []]
  rfl

theorem inflowC_filterpos (pairs : List (Edge × ℕ)) (n : NodeId) :
    inflowC ((pairs.filter (fun p => decide (0 < p.2))).map
      (fun p => (p.1, (some p.2 : Cap)))) n = some (inflowE pairs n) := by
  induction pairs with
  | nil => rfl
  | cons p t ih =>
      rw [List.filter_cons]
      by_cases h : 0 < p.2
      · rw [if_pos (by simpa using h), List.map_cons]
        unfold inflowC inflowE
        by_cases ht : p.1.target = n
        · rw [if_pos ht, if_pos ht, ih]
          simp [capAdd]
        · rw [if_neg ht, if_neg ht, ih, Nat.zero_add]
      · rw [if_neg (by simpa using h)]
        have hz : p.2 = 0 := by omega
        unfold inflowE
        rw [ih, hz]
        by_cases ht : p.1.target = n <;> simp [ht]

theorem outflowC_filterpos (pairs : List (Edge × ℕ)) (n : NodeId) :
    outflowC ((pairs.filter (fun p => decide (0 < p.2))).map
      (fun p => (p.1, (some p.2 : Cap)))) n = some (outflowE pairs n) := by
  induction pairs with
  | nil => rfl
  | cons p t ih =>
      rw [List.filter_cons]
      by_cases h : 0 < p.2
      · rw [if_pos (by simpa using h), List.map_cons]
        unfold outflowC outflowE
        by_cases ht : p.1.source = n
        · rw [if_pos ht, if_pos ht, ih]
          simp [capAdd]
        · rw [if_neg ht, if_neg ht, ih, Nat.zero_add]
      · rw [if_neg (by simpa using h)]
        have hz : p.2 = 0 := by omega
        unfold outflowE
        rw [ih, hz]
        by_cases ht : p.1.source = n <;> simp [ht]

theorem inflowE_zip_toArc (edges : List Edge) :
    ∀ (flows : List ℕ) (n : NodeId),
      inflowE (edges.zip flows) n =
        inflowN ((edges.map toArc).zip flows) n := by
  induction edges with
  | nil => intro flows n; rfl
  | cons e t ih =>
      intro flows n
      cases flows with
      | nil => rfl
      | cons v vs =>
          rw [List.map_cons, List.zip_cons_cons, List.zip_cons_cons]
          unfold inflowE inflowN
          rw [ih vs n]
          rfl

theorem outflowE_zip_toArc (edges : List Edge) :
    ∀ (flows : List ℕ) (n : NodeId),
      outflowE (edges.zip flows) n =
        outflowN ((edges.map toArc).zip flows) n := by
  induction edges with
  | nil => intro flows n; rfl
  | cons e t ih =>
      intro flows n
      cases flows with
      | nil => rfl
      | cons v vs =>
          rw [List.map_cons, List.zip_cons_cons, List.zip_cons_cons]
          unfold outflowE outflowN
          rw [ih vs n]
          rfl

theorem inflowN_zip_zeros (arcs : List Arc) (n : NodeId) :
    inflowN (arcs.zip (List.replicate arcs.length 0)) n = 0 := by
  induction arcs with
  | nil => rfl
  | cons a t ih =>
      rw [List.length_cons, List.replicate_succ, List.zip_cons_cons]
      unfold inflowN
      rw [ih]
      simp

theorem outflowN_zip_zeros (arcs : List Arc) (n : NodeId) :
    outflowN (arcs.zip (List.replicate arcs.length 0)) n = 0 := by
  induction arcs with
  | nil => rfl
  | cons a t ih =>
      rw [List.length_cons, List.replicate_succ, List.zip_cons_cons]
      unfold outflowN
      rw [ih]
      simp

theorem flowCost_zip_zeros (arcs : List Arc) :
    flowCost (arcs.zip (List.replicate arcs.length 0)) = 0 := by
  induction arcs with
  | nil => rfl
  | cons a t ih =>
      rw [List.length_cons, List.replicate_succ, List.zip_cons_cons]
      unfold flowCost
      rw [ih]
      simp

theorem flowCost_nonneg (arcs : List Arc)
    (hc : ∀ a ∈ arcs, 0 ≤ a.cost) :
    ∀ flows : List ℕ, 0 ≤ flowCost (arcs.zip flows) := by
  induction arcs with
  | nil => intro flows; exact le_refl 0
  | cons a t ih =>
      intro flows
      cases flows with
      | nil => exact le_refl 0
      | cons v vs =>
          rw [List.zip_cons_cons]
          unfold flowCost
          dsimp only
          have h1 : 0 ≤ a.cost := hc a (.head _)
          have h2 := ih (fun x hx => hc x (.tail _ hx)) vs
          have h3 : 0 ≤ a.cost * (v : ℤ) :=
            mul_nonneg h1 (Int.ofNat_nonneg v)
          omega

/-- The all-zero flow is feasible for a balanced instance with zero
supply. -/
theorem zero_flow_feasible (arcs : List Arc) :
    Feasible arcs 0 0 (List.replicate arcs.length 0) := by
  refine ⟨List.length_replicate _ _, ?_, ?_, ?_, ?_⟩
  · intro p hp
    have : p.2 = 0 := by
      induction arcs with
      | nil => cases hp
      | cons a t ih =>
          rw [List.length_cons, List.replicate_succ,
            List.zip_cons_cons] at hp
          rcases List.mem_cons.mp hp with h | h
          · rw [h]
          · exact ih h
    rw [this]
    exact Nat.zero_le _
  · intro n _ _
    rw [inflowN_zip_zeros, outflowN_zip_zeros]
  · rw [inflowN_zip_zeros, outflowN_zip_zeros]
  · rw [inflowN_zip_zeros, outflowN_zip_zeros]

theorem greedyStep_neg (st : (NodeId → Cap) × Solution) (e : Edge)
    (h : ¬ capPos (capMin e.capacity (st.1 e.source)) = true) :
    greedyStep st e = st := by
  unfold greedyStep
  dsimp only
  rw [if_neg h]

theorem greedyStep_flow_pos (st : (NodeId → Cap) × Solution) (e : Edge)
    (h : capPos (capMin e.capacity (st.1 e.source)) = true) :
    (greedyStep st e).2.flow =
      st.2.flow ++ [(e, capMin e.capacity (st.1 e.source))] := by
  unfold greedyStep
  dsimp only
  rw [if_pos h]
  split
  · split <;> rfl
  · split
    · split <;> rfl
    · rfl

theorem greedyStep_supply_pos (st : (NodeId → Cap) × Solution) (e : Edge)
    (h : capPos (capMin e.capacity (st.1 e.source)) = true) :
    (greedyStep st e).1 =
      updSupply
        (updSupply st.1 e.source
          (capSub (st.1 e.source) (capMin e.capacity (st.1 e.source))))
        e.target
        (capAdd
          ((updSupply st.1 e.source
            (capSub (st.1 e.source) (capMin e.capacity (st.1 e.source))))
            e.target)
          (capMin e.capacity (st.1 e.source))) := by
  unfold greedyStep
  dsimp only
  rw [if_pos h]

/-- Per-node greedy balance invariant: the flow pushed into a node so
far equals the flow pushed out of it plus its remaining balance in
`node_supply`. -/
def GreedyInvN (n : NodeId) (st : (NodeId → Cap) × Solution) : Prop :=
  inflowC st.2.flow n = capAdd (outflowC st.2.flow n) (st.1 n)

theorem updSupply_eval (s : NodeId → Cap) (n : NodeId) (v : Cap)
    (m : NodeId) : updSupply s n v m = if m = n then v else s m := rfl

theorem greedyStep_inv (st : (NodeId → Cap) × Solution) (e : Edge)
    (n : NodeId) (hIH : GreedyInvN n st) : GreedyInvN n (greedyStep st e) := by
  unfold GreedyInvN at hIH ⊢
  by_cases h : capPos (capMin e.capacity (st.1 e.source)) = true
  · have hle : capLE (capMin e.capacity (st.1 e.source)) (st.1 e.source) :=
      capLE_min_right _ _
    rw [greedyStep_flow_pos st e h, greedyStep_supply_pos st e h,
      inflowC_append_one, outflowC_append_one]
    dsimp only
    by_cases htgt : e.target = n
    · by_cases hsrc : e.source = n
      · have hsup :
            updSupply
              (updSupply st.1 e.source
                (capSub (st.1 e.source)
                  (capMin e.capacity (st.1 e.source))))
              e.target
              (capAdd
                (updSupply st.1 e.source
                  (capSub (st.1 e.source)
                    (capMin e.capacity (st.1 e.source))) e.target)
                (capMin e.capacity (st.1 e.source))) n =
              st.1 e.source := by
          rw [updSupply_eval, if_pos htgt.symm, updSupply_eval,
            if_pos (htgt.trans hsrc.symm), capAdd_capSub_cancel hle]
        rw [if_pos htgt, if_pos hsrc, hsup, hIH, hsrc]
        rw [capAdd_assoc, capAdd_assoc,
          capAdd_comm (st.1 n) (capMin e.capacity (st.1 n))]
      · have hsup :
            updSupply
              (updSupply st.1 e.source
                (capSub (st.1 e.source)
                  (capMin e.capacity (st.1 e.source))))
              e.target
              (capAdd
                (updSupply st.1 e.source
                  (capSub (st.1 e.source)
                    (capMin e.capacity (st.1 e.source))) e.target)
                (capMin e.capacity (st.1 e.source))) n =
              capAdd (st.1 n) (capMin e.capacity (st.1 e.source)) := by
          rw [updSupply_eval, if_pos htgt.symm, updSupply_eval,
            if_neg (fun hh : e.target = e.source =>
              hsrc (hh.symm.trans htgt)), htgt]
        rw [if_pos htgt, if_neg hsrc, hsup, hIH, capAdd_assoc]
    · by_cases hsrc : e.source = n
      · have hle2 : capLE (capMin e.capacity (st.1 e.source)) (st.1 n) := by
          rw [← hsrc]; exact hle
        have hsup :
            updSupply
              (updSupply st.1 e.source
                (capSub (st.1 e.source)
                  (capMin e.capacity (st.1 e.source))))
              e.target
              (capAdd
                (updSupply st.1 e.source
                  (capSub (st.1 e.source)
                    (capMin e.capacity (st.1 e.source))) e.target)
                (capMin e.capacity (st.1 e.source))) n =
              capSub (st.1 n) (capMin e.capacity (st.1 e.source)) := by
          rw [updSupply_eval, if_neg (fun hh : n = e.target => htgt hh.symm),
            updSupply_eval, if_pos hsrc.symm, hsrc]
        rw [if_neg htgt, if_pos hsrc, hsup, hIH]
        rw [capAdd_assoc,
          capAdd_comm (capMin e.capacity (st.1 e.source))
            (capSub (st.1 n) (capMin e.capacity (st.1 e.source))),
          capAdd_capSub_cancel hle2]
      · have hsup :
            updSupply
              (updSupply st.1 e.source
                (capSub (st.1 e.source)
                  (capMin e.capacity (st.1 e.source))))
              e.target
              (capAdd
                (updSupply st.1 e.source
                  (capSub (st.1 e.source)
                    (capMin e.capacity (st.1 e.source))) e.target)
                (capMin e.capacity (st.1 e.source))) n =
              st.1 n := by
          rw [updSupply_eval, if_neg (fun hh : n = e.target => htgt hh.symm),
            updSupply_eval, if_neg (fun hh : n = e.source => hsrc hh.symm)]
        rw [if_neg htgt, if_neg hsrc, hsup]
        exact hIH
  · rw [greedyStep_neg st e h]
    exact hIH

theorem greedyFold_inv (n : NodeId) (l : List Edge) :
    ∀ st : (NodeId → Cap) × Solution, GreedyInvN n st →
      GreedyInvN n (l.foldl greedyStep st) := by
  induction l with
  | nil => intro st h; exact h
  | cons e t ih =>
      intro st h
      rw [List.foldl_cons]
      exact ih _ (greedyStep_inv st e n h)

theorem greedyInvN_start (n : NodeId) (s : NodeId → Cap)
    (h : s n = some 0) : GreedyInvN n (s, { status := .GREEDY }) := by
  unfold GreedyInvN
  show some 0 = capAdd (some 0) (s n)
  rw [h]
  rfl

/-- In a greedy solution, the flow out of any node other than the seeded
source id never exceeds the flow into it. -/
theorem greedySolve_outflow_le_inflow (g : Graph) (n : NodeId)
    (hn : ∀ sid, g.source_node = some sid → n ≠ sid) :
    capLE (outflowC (greedySolve g).flow n)
      (inflowC (greedySolve g).flow n) := by
  unfold greedySolve
  dsimp only
  cases hsn : g.source_node with
  | none =>
      have hinv := greedyFold_inv n (sortEdgesByCost g.edges)
        ((fun _ => some 0), { status := .GREEDY })
        (greedyInvN_start n _ rfl)
      unfold GreedyInvN at hinv
      rw [hinv]
      exact capLE_self_capAdd _ _
  | some sid =>
      have hinv := greedyFold_inv n (sortEdgesByCost g.edges)
        ((updSupply (fun _ => some 0) sid
            (g.edges.foldl
              (fun a e => if e.source = sid then capAdd a e.capacity else a)
              (some 0))), { status := .GREEDY })
        (greedyInvN_start n _
          (by rw [updSupply_eval, if_neg (hn sid hsn)]))
      unfold GreedyInvN at hinv
      rw [hinv]
      exact capLE_self_capAdd _ _
/-- A one-airport, no-flight graph with 5 initial ECONOMY kits and a
two-hour horizon: supply that has nowhere to go. -/
def gC4 : Graph :=
  build_network [("A", apStd)] [] [] [(("A", KitType.ECONOMY), 5)] 2 0 0

/-- C4 counterexample: on `gC4` the greedy solver pushes all 5 kits into
the ordinary node `(A, 1, ECONOMY)` and nothing out of it, so its
solution violates flow conservation at a node that is neither Source nor
Sink. -/
theorem C4_counterexample :
    inflowC (greedySolve gC4).flow (NodeId.airport "A" 1 .ECONOMY) =
        some 5 ∧
    outflowC (greedySolve gC4).flow (NodeId.airport "A" 1 .ECONOMY) =
        some 0 ∧
    NodeId.airport "A" 1 KitType.ECONOMY ≠ NodeId.source ∧
    NodeId.airport "A" 1 KitType.ECONOMY ≠ NodeId.sink := by
  with_unfolding_all decide
/-- C4 (amended): on a balanced instance for which a feasible flow
exists, the exact solver's returned solution conserves flow at every
node other than Source and Sink; the greedy solver only guarantees that
outflow never exceeds inflow away from the seeded source node, and
`C4_counterexample` exhibits a built graph where its solution strictly
violates conservation. -/
theorem C4_conservation (g : Graph) (res : BackendResult) (S D : ℕ)
    (sol : Solution)
    (hS : total_supply_of (solverPrepare g).edges = some S)
    (hD : demand_adjusted (solverPrepare g).edges = some D)
    (hSD : S = D) (f0 : List ℕ)
    (hf0 : Feasible (mcfArcs (solverPrepare g)) S D f0)
    (hspec : MCFBackendSpec (mcfArcs (solverPrepare g)) S D res)
    (hok : mcfSolve g res = .ok sol) :
    (∀ n : NodeId, n ≠ .source → n ≠ .sink →
      inflowC sol.flow n = outflowC sol.flow n) ∧
    (∀ n : NodeId, (∀ sid, g.source_node = some sid → n ≠ sid) →
      capLE (outflowC (greedySolve g).flow n)
        (inflowC (greedySolve g).flow n)) := by
  constructor
  · obtain ⟨hopt, hfeas, _, _⟩ := hspec.2.2 hSD f0 hf0
    unfold mcfSolve at hok
    dsimp only at hok
    rw [hS, hD] at hok
    dsimp only at hok
    rw [hopt] at hok
    dsimp only at hok
    have hsol := Except.ok.inj hok
    subst hsol
    intro n h1 h2
    dsimp only
    rw [flowListOf_eq, inflowC_filterpos, outflowC_filterpos,
      inflowE_zip_toArc, outflowE_zip_toArc]
    exact congrArg some (hfeas.2.2.1 n h1 h2)
  · exact fun n hn => greedySolve_outflow_le_inflow g n hn

/-- A tiny demand-free built graph used to exercise the exact-solver
branch on a concrete balanced instance. -/
def gC4w : Graph := build_network [("A", apStd)] [] [] [] 2 0 0

/-- A backend answer for `gC4w`: the all-zero flow at cost 0. -/
def resC4w : BackendResult :=
  { bstatus := .OPTIMAL,
    flows := List.replicate (mcfArcs (solverPrepare gC4w)).length 0,
    optCost := 0 }

theorem resC4w_spec :
    MCFBackendSpec (mcfArcs (solverPrepare gC4w)) 0 0 resC4w := by
  refine ⟨fun h => absurd rfl h,
    fun _ h => absurd ⟨_, zero_flow_feasible _⟩ h, ?_⟩
  intro _ f hf
  refine ⟨rfl, zero_flow_feasible _, ?_, ?_⟩
  · intro f2 hf2
    show flowCost ((mcfArcs (solverPrepare gC4w)).zip
      (List.replicate (mcfArcs (solverPrepare gC4w)).length 0)) ≤ _
    rw [flowCost_zip_zeros]
    exact flowCost_nonneg _ (by with_unfolding_all decide) f2
  · show (0 : ℤ) = flowCost ((mcfArcs (solverPrepare gC4w)).zip
      (List.replicate (mcfArcs (solverPrepare gC4w)).length 0))
    rw [flowCost_zip_zeros]

/-- The solution `mcfSolve` produces on `gC4w` with `resC4w`. -/
def solC4w : Solution :=
  { status := .OPTIMAL, total_cost := ((0 : ℤ) : ℚ) / 1000,
    kit_loads := [], purchases := [], flow := [] }

theorem C4_conservation_witness :
    (∀ n : NodeId, n ≠ .source → n ≠ .sink →
      inflowC solC4w.flow n = outflowC solC4w.flow n) ∧
    (∀ n : NodeId, (∀ sid, gC4w.source_node = some sid → n ≠ sid) →
      capLE (outflowC (greedySolve gC4w).flow n)
        (inflowC (greedySolve gC4w).flow n)) :=
  C4_conservation gC4w resC4w 0 0 solC4w
    (by with_unfolding_all rfl) (by with_unfolding_all rfl) rfl
    (List.replicate (mcfArcs (solverPrepare gC4w)).length 0)
    (zero_flow_feasible _) resC4w_spec (by with_unfolding_all rfl)
theorem inflowN_append (l1 l2 : List (Arc × ℕ)) (n : NodeId) :
    inflowN (l1 ++ l2) n = inflowN l1 n + inflowN l2 n := by
  induction l1 with
  | nil => simp [inflowN]
  | cons p t ih =>
      show (if p.1.dst = n then p.2 else 0) + inflowN (t ++ l2) n =
        ((if p.1.dst = n then p.2 else 0) + inflowN t n) + inflowN l2 n
      rw [ih]
      omega

theorem outflowN_append (l1 l2 : List (Arc × ℕ)) (n : NodeId) :
    outflowN (l1 ++ l2) n = outflowN l1 n + outflowN l2 n := by
  induction l1 with
  | nil => simp [outflowN]
  | cons p t ih =>
      show (if p.1.src = n then p.2 else 0) + outflowN (t ++ l2) n =
        ((if p.1.src = n then p.2 else 0) + outflowN t n) + outflowN l2 n
      rw [ih]
      omega

theorem flowCost_append (l1 l2 : List (Arc × ℕ)) :
    flowCost (l1 ++ l2) = flowCost l1 + flowCost l2 := by
  induction l1 with
  | nil => simp [flowCost]
  | cons p t ih =>
      show p.1.cost * (p.2 : ℤ) + flowCost (t ++ l2) =
        (p.1.cost * (p.2 : ℤ) + flowCost t) + flowCost l2
      rw [ih]
      ring

theorem mem_zip_replicate_zero (arcs : List Arc) (p : Arc × ℕ)
    (hp : p ∈ arcs.zip (List.replicate arcs.length 0)) : p.2 = 0 := by
  induction arcs with
  | nil => cases hp
  | cons a t ih =>
      rw [List.length_cons, List.replicate_succ, List.zip_cons_cons] at hp
      rcases List.mem_cons.mp hp with h | h
      · rw [h]
      · exact ih h

theorem pyTrunc_nonneg (q : ℚ) (h : 0 ≤ q) : 0 ≤ pyTrunc q := by
  unfold pyTrunc
  rw [if_pos h]
  exact Int.le_floor.mpr (by exact_mod_cast h)

/-- The arc the dummy Source→Sink edge turns into. -/
theorem toArc_dummyEdge :
    toArc dummyEdge =
      { src := .source, dst := .sink, cap := 999999, cost := 0 } := by
  simp [toArc, dummyEdge, pyTrunc, intCapacity]

/-- The flow that routes all `S` units of supply through the dummy edge
and nothing anywhere else is feasible whenever `S` fits the dummy
capacity. -/
theorem dummy_flow_feasible (front : List Edge) (S : ℕ)
    (hb : S ≤ 999999) :
    Feasible ((front ++ [dummyEdge]).map toArc) S S
      (List.replicate (front.map toArc).length 0 ++ [S]) := by
  rw [List.map_append]
  have hzip :
      ((front.map toArc) ++ [dummyEdge].map toArc).zip
          (List.replicate (front.map toArc).length 0 ++ [S]) =
        (front.map toArc).zip
            (List.replicate (front.map toArc).length 0) ++
          ([dummyEdge].map toArc).zip [S] := by
    exact List.zip_append (by rw [List.length_replicate])
  rw [List.map_cons, List.map_nil] at hzip ⊢
  rw [toArc_dummyEdge] at hzip ⊢
  refine ⟨by simp, ?_, ?_, ?_, ?_⟩
  · intro p hp
    rw [hzip] at hp
    rcases List.mem_append.mp hp with h | h
    · rw [mem_zip_replicate_zero _ p h]
      exact Nat.zero_le _
    · rw [List.zip_cons_cons, List.zip_nil_right] at h
      rcases List.mem_singleton.mp h with rfl
      exact hb
  · intro n h1 h2
    rw [hzip, inflowN_append, outflowN_append, inflowN_zip_zeros,
      outflowN_zip_zeros, List.zip_cons_cons, List.zip_nil_right]
    unfold inflowN outflowN
    rw [if_neg (fun hh : NodeId.sink = n => h2 hh.symm),
      if_neg (fun hh : NodeId.source = n => h1 hh.symm)]
    rfl
  · rw [hzip, inflowN_append, outflowN_append, inflowN_zip_zeros,
      outflowN_zip_zeros, List.zip_cons_cons, List.zip_nil_right]
    unfold inflowN outflowN
    rw [if_pos rfl,
      if_neg (show NodeId.sink ≠ NodeId.source by decide)]
    simp [inflowN, outflowN]
  · rw [hzip, inflowN_append, outflowN_append, inflowN_zip_zeros,
      outflowN_zip_zeros, List.zip_cons_cons, List.zip_nil_right]
    unfold inflowN outflowN
    rw [if_pos rfl,
      if_neg (show NodeId.source ≠ NodeId.sink by decide)]
    simp [inflowN, outflowN]

/-- Cost of the dummy-only flow: zero. -/
theorem dummy_flow_cost (front : List Edge) (S : ℕ) :
    flowCost (((front ++ [dummyEdge]).map toArc).zip
      (List.replicate (front.map toArc).length 0 ++ [S])) = 0 := by
  rw [List.map_append]
  have hzip :
      ((front.map toArc) ++ [dummyEdge].map toArc).zip
          (List.replicate (front.map toArc).length 0 ++ [S]) =
        (front.map toArc).zip
            (List.replicate (front.map toArc).length 0) ++
          ([dummyEdge].map toArc).zip [S] := by
    exact List.zip_append (by rw [List.length_replicate])
  rw [List.map_cons, List.map_nil, toArc_dummyEdge] at hzip ⊢
  rw [hzip, flowCost_append, flowCost_zip_zeros, List.zip_cons_cons,
    List.zip_nil_right]
  simp [flowCost]
/-- In a graph built with no upcoming flights, every edge is an
initial-inventory, storage or purchase edge, and all costs are
nonnegative. -/
theorem build_noflight_edge_shape (A : List (String × Airport))
    (M : List (String × AircraftType))
    (inv : List ((String × KitType) × ℕ)) (H : ℕ) (d hr : Int) :
    ∀ e ∈ (build_network A M [] inv H d hr).edges,
      (e.edgeType = .initial_inventory ∨ e.edgeType = .storage ∨
        e.edgeType = .purchase) ∧ 0 ≤ e.cost := by
  intro e he
  rw [(build_network_edges A M [] inv H d hr).1] at he
  simp only [List.flatMap_nil, List.append_nil] at he
  rcases List.mem_append.mp he with he | he
  · rcases List.mem_append.mp he with he | he
    · obtain ⟨p, _, hp⟩ := List.mem_flatMap.mp he
      obtain ⟨h1, _, _, h4, _⟩ := mem_invEdgesFor hp
      exact ⟨.inl h1, by rw [h4]⟩
    · obtain ⟨t, _, he⟩ := List.mem_flatMap.mp he
      obtain ⟨p, _, he⟩ := List.mem_flatMap.mp he
      obtain ⟨k, _, he⟩ := List.mem_flatMap.mp he
      obtain ⟨h1, _, _, h4, _⟩ := mem_storageEdgesFor he
      exact ⟨.inr (.inl h1), by rw [h4]⟩
  · obtain ⟨k, _, he⟩ := List.mem_flatMap.mp he
    obtain ⟨_, rfl⟩ := mem_purchaseEdgesFor he
    refine ⟨.inr (.inr rfl), ?_⟩
    show (0 : ℚ) ≤ purchaseCost k
    cases k <;> norm_num [purchaseCost]

theorem total_demand_of_no_demand (edges : List Edge)
    (h : ∀ e ∈ edges, ¬ e.edgeType = .demand) :
    total_demand_of edges = some 0 := by
  unfold total_demand_of
  have hf : edges.filter (fun e => decide (e.edgeType = EdgeType.demand)) =
      [] := by
    rw [List.filter_eq_nil_iff]
    intro e he
    simpa using h e he
  rw [hf]
  rfl

theorem hasDemandEdge_of_types (g : Graph)
    (h : ∀ e ∈ g.edges, ¬ e.edgeType = .demand) :
    hasDemandEdge g = false := by
  unfold hasDemandEdge
  rw [List.any_eq_false]
  intro e he
  simpa using h e he
/-- C8 (amended): on a graph built with no upcoming flights (hence zero
flight edges and zero demand edges), positive finite total supply `S`
and `S ≤ 999999`, the exact solver returns status OPTIMAL with total
cost 0: the dummy-only flow is feasible at cost 0 and every arc cost is
nonnegative.  When `S` exceeds the dummy capacity 999999 the instance is
infeasible instead, as `C8_counterexample` shows. -/
theorem C8_zero_flight_graphs (A : List (String × Airport))
    (M : List (String × AircraftType))
    (inv : List ((String × KitType) × ℕ)) (H : ℕ) (d hr : Int)
    (S : ℕ) (res : BackendResult) (sol : Solution)
    (hS : total_supply_of
      (solverPrepare (build_network A M [] inv H d hr)).edges = some S)
    (hpos : 0 < S) (hbound : S ≤ 999999)
    (hspec : MCFBackendSpec
      (mcfArcs (solverPrepare (build_network A M [] inv H d hr))) S S res)
    (hok : mcfSolve (build_network A M [] inv H d hr) res = .ok sol) :
    sol.status = .OPTIMAL ∧ sol.total_cost = 0 := by
  set gb := build_network A M [] inv H d hr with hgb
  have hshape : ∀ e ∈ gb.edges,
      (e.edgeType = .initial_inventory ∨ e.edgeType = .storage ∨
        e.edgeType = .purchase) ∧ 0 ≤ e.cost := by
    rw [hgb]
    exact build_noflight_edge_shape A M inv H d hr
  have hnd : hasDemandEdge gb = false :=
    hasDemandEdge_of_types _ (fun e he => by
      rcases (hshape e he).1 with h | h | h <;> simp [h])
  have hprep : (solverPrepare gb).edges = gb.edges ++ [dummyEdge] := by
    rw [solverPrepare_edges, hnd]
    simp
  have hdem : total_demand_of (solverPrepare gb).edges = some 0 := by
    rw [hprep]
    refine total_demand_of_no_demand _ ?_
    intro e he
    rcases List.mem_append.mp he with h | h
    · rcases (hshape e h).1 with h2 | h2 | h2 <;> simp [h2]
    · rcases List.mem_singleton.mp h with rfl
      simp [dummyEdge]
  have hDadj : demand_adjusted (solverPrepare gb).edges = some S := by
    unfold demand_adjusted
    dsimp only
    rw [hdem, hS]
    rw [if_pos ⟨rfl, by simp [capPos, hpos]⟩]
  have harcs : mcfArcs (solverPrepare gb) =
      (gb.edges ++ [dummyEdge]).map toArc := by
    unfold mcfArcs
    rw [hprep]
  have hfeas : Feasible (mcfArcs (solverPrepare gb)) S S
      (List.replicate (gb.edges.map toArc).length 0 ++ [S]) := by
    rw [harcs]
    exact dummy_flow_feasible gb.edges S hbound
  obtain ⟨hopt, hfr, hmin, hcosteq⟩ := hspec.2.2 rfl _ hfeas
  have hcnn : ∀ a ∈ mcfArcs (solverPrepare gb), 0 ≤ a.cost := by
    intro a ha
    rw [harcs] at ha
    obtain ⟨e, he, rfl⟩ := List.mem_map.mp ha
    have hc : 0 ≤ e.cost := by
      rcases List.mem_append.mp he with h | h
      · exact (hshape e h).2
      · rcases List.mem_singleton.mp h with rfl
        norm_num [dummyEdge]
    show 0 ≤ pyTrunc (e.cost * 1000)
    exact pyTrunc_nonneg _ (mul_nonneg hc (by norm_num))
  have hle := hmin _ hfeas
  rw [harcs, dummy_flow_cost gb.edges S] at hle
  have hge := flowCost_nonneg _ hcnn res.flows
  have hzero : flowCost ((mcfArcs (solverPrepare gb)).zip res.flows) = 0 := by
    rw [harcs] at hge ⊢
    exact le_antisymm hle hge
  have hoc : res.optCost = 0 := by
    rw [hcosteq]
    exact hzero
  unfold mcfSolve at hok
  dsimp only at hok
  rw [hS, hDadj] at hok
  dsimp only at hok
  rw [hopt] at hok
  dsimp only at hok
  have hsol := Except.ok.inj hok
  subst hsol
  refine ⟨rfl, ?_⟩
  dsimp only
  rw [hoc]
  norm_num
/-- The backend answer for `gC4`: all supply through the dummy edge at
cost 0. -/
def resC8w : BackendResult :=
  { bstatus := .OPTIMAL,
    flows := List.replicate (gC4.edges.map toArc).length 0 ++ [5],
    optCost := 0 }

theorem resC8w_spec :
    MCFBackendSpec (mcfArcs (solverPrepare gC4)) 5 5 resC8w := by
  have harcs : mcfArcs (solverPrepare gC4) =
      (gC4.edges ++ [dummyEdge]).map toArc := by
    with_unfolding_all rfl
  have hfeas : Feasible (mcfArcs (solverPrepare gC4)) 5 5 resC8w.flows := by
    show Feasible _ 5 5 (List.replicate (gC4.edges.map toArc).length 0 ++ [5])
    rw [harcs]
    exact dummy_flow_feasible gC4.edges 5 (by norm_num)
  have hcnn : ∀ a ∈ mcfArcs (solverPrepare gC4), 0 ≤ a.cost := by
    intro a ha
    rw [harcs] at ha
    obtain ⟨e, he, rfl⟩ := List.mem_map.mp ha
    have hc : 0 ≤ e.cost := by
      rcases List.mem_append.mp he with h | h
      · exact (build_noflight_edge_shape [("A", apStd)] []
          [(("A", KitType.ECONOMY), 5)] 2 0 0 e h).2
      · rcases List.mem_singleton.mp h with rfl
        norm_num [dummyEdge]
    exact pyTrunc_nonneg _ (mul_nonneg hc (by norm_num))
  have hcost0 :
      flowCost ((mcfArcs (solverPrepare gC4)).zip resC8w.flows) = 0 := by
    show flowCost ((mcfArcs (solverPrepare gC4)).zip
      (List.replicate (gC4.edges.map toArc).length 0 ++ [5])) = 0
    rw [harcs]
    exact dummy_flow_cost gC4.edges 5
  refine ⟨fun h => absurd rfl h, fun _ h => absurd ⟨_, hfeas⟩ h, ?_⟩
  intro _ f hf
  refine ⟨rfl, hfeas, ?_, hcost0.symm⟩
  intro f2 hf2
  rw [hcost0]
  exact flowCost_nonneg _ hcnn f2

/-- The solution `mcfSolve` produces on `gC4` with `resC8w`. -/
def solC8w : Solution :=
  { status := .OPTIMAL, total_cost := ((0 : ℤ) : ℚ) / 1000,
    kit_loads := [], purchases := [], flow := [(dummyEdge, some 5)] }

theorem C8_zero_flight_graphs_witness :
    solC8w.status = .OPTIMAL ∧ solC8w.total_cost = 0 :=
  C8_zero_flight_graphs [("A", apStd)] [] [(("A", KitType.ECONOMY), 5)]
    2 0 0 5 resC8w solC8w (by with_unfolding_all rfl) (by norm_num)
    (by norm_num) resC8w_spec (by with_unfolding_all rfl)
/-- A no-flight graph whose total supply (1 000 000 initial ECONOMY
kits, horizon 1) exceeds the dummy edge's 999999 capacity. -/
def gC8x : Graph :=
  build_network [("A", apStd)] [] []
    [(("A", KitType.ECONOMY), 1000000)] 1 0 0

/-- The only edge the builder creates for `gC8x`. -/
def invEC8 : Edge :=
  { source := .source, target := .airport "A" 0 KitType.ECONOMY,
    capacity := some 1000000, cost := 0,
    edgeType := .initial_inventory, mKit := some KitType.ECONOMY }

/-- A backend answer conforming to the contract on the infeasible
instance. -/
def resC8x : BackendResult :=
  { bstatus := .INFEASIBLE, flows := [], optCost := 0 }

/-- C8 counterexample: `gC8x` is built with zero flight and demand
edges and a positive initial-inventory edge, the solver balances it at
supply = demand = 1 000 000, yet no feasible flow exists (the sink's
only incoming arc is the dummy, capacity 999999), so a
contract-conforming backend answers INFEASIBLE and the exact solver
returns status INFEASIBLE — not OPTIMAL with cost 0. -/
theorem C8_counterexample :
    total_supply_of (solverPrepare gC8x).edges = some 1000000 ∧
    demand_adjusted (solverPrepare gC8x).edges = some 1000000 ∧
    (∃ e ∈ gC8x.edges, e.edgeType = .initial_inventory ∧
      capPos e.capacity = true) ∧
    ¬ (∃ f, Feasible (mcfArcs (solverPrepare gC8x)) 1000000 1000000 f) ∧
    MCFBackendSpec (mcfArcs (solverPrepare gC8x)) 1000000 1000000 resC8x ∧
    mcfSolve gC8x resC8x = .ok { status := .INFEASIBLE } := by
  have hedges : gC8x.edges = [invEC8] := by
    with_unfolding_all rfl
  have hnd : hasDemandEdge gC8x = false := by
    with_unfolding_all rfl
  have hprep : (solverPrepare gC8x).edges = gC8x.edges ++ [dummyEdge] := by
    rw [solverPrepare_edges, hnd]
    simp
  have harcs : mcfArcs (solverPrepare gC8x) =
      [toArc invEC8, toArc dummyEdge] := by
    unfold mcfArcs
    rw [hprep, hedges]
    rfl
  have hinf :
      ¬ (∃ f, Feasible (mcfArcs (solverPrepare gC8x)) 1000000 1000000 f) := by
    rintro ⟨f, hf⟩
    rw [harcs] at hf
    obtain ⟨hlen, hcap, hcons, hsrc, hsink⟩ := hf
    cases f with
    | nil => simp at hlen
    | cons x t =>
        cases t with
        | nil => simp at hlen
        | cons y t2 =>
            cases t2 with
            | cons z t3 => simp at hlen
            | nil =>
                have hy : y ≤ (toArc dummyEdge).cap := by
                  refine hcap (toArc dummyEdge, y) ?_
                  simp [List.zip_cons_cons]
                rw [toArc_dummyEdge] at hy
                have hdstInv : (toArc invEC8).dst =
                    NodeId.airport "A" 0 KitType.ECONOMY := rfl
                simp only [List.zip_cons_cons, List.zip_nil_right,
                  inflowN, outflowN, hdstInv, toArc_dummyEdge] at hsink
                simp at hsink hy
                omega
  refine ⟨by with_unfolding_all rfl, by with_unfolding_all rfl,
    ⟨invEC8, by rw [hedges]; exact .head _, rfl, rfl⟩, hinf,
    ⟨fun h => absurd rfl h, fun _ _ => rfl,
      fun _ f hf => absurd ⟨f, hf⟩ hinf⟩,
    by with_unfolding_all rfl⟩
/-- A flight identical to `flC1` except that it carries 2 ECONOMY
passengers instead of 1. -/
def flC1r : FlightInfo :=
  { id := "F1", source := "A", dest := "B", aircraft := "X",
    departure_hour := 0, arrival_hour := 0, distance := 1,
    fuel_cost_per_km := mkRat 1 2,
    passengers := fun k => match k with | .ECONOMY => 2 | _ => 0 }

/-- Balanced base instance: 1 initial ECONOMY kit, one demand edge of
capacity 1. -/
def gC9 : Graph :=
  build_network [("A", apStd)] [] [flC1] [(("A", KitType.ECONOMY), 1)] 1 0 0

/-- The same instance with the single demand edge's required quantity
raised from 1 to 2, everything else identical. -/
def gC9r : Graph :=
  build_network [("A", apStd)] [] [flC1r] [(("A", KitType.ECONOMY), 1)] 1 0 0

/-- The initial-inventory edge of `gC9`. -/
def invE9 : Edge :=
  { source := .source, target := .airport "A" 0 KitType.ECONOMY,
    capacity := some 1, cost := 0,
    edgeType := .initial_inventory, mKit := some KitType.ECONOMY }

/-- The demand edge of `gC9`. -/
def demE9 : Edge :=
  { source := .airport "A" 0 KitType.ECONOMY, target := .sink,
    capacity := some 1,
    cost := flC1.distance * demandKitCost KitType.ECONOMY * 10,
    edgeType := .demand, mFlightId := some "F1",
    mKit := some KitType.ECONOMY }

theorem gC9_prepared_edges : (solverPrepare gC9).edges = [invE9, demE9] := by
  with_unfolding_all rfl

theorem gC9r_prepared_edges :
    (solverPrepare gC9r).edges =
      [invE9, { demE9 with capacity := some 2 }] := by
  with_unfolding_all rfl

theorem gC9_arcs :
    mcfArcs (solverPrepare gC9) = [toArc invE9, toArc demE9] := by
  unfold mcfArcs
  rw [gC9_prepared_edges]
  rfl

theorem gC9_feasible :
    Feasible (mcfArcs (solverPrepare gC9)) 1 1 [1, 1] := by
  rw [gC9_arcs]
  have hd1 : (toArc invE9).dst = NodeId.airport "A" 0 KitType.ECONOMY := rfl
  have hd2 : (toArc demE9).dst = NodeId.sink := rfl
  have hs1 : (toArc invE9).src = NodeId.source := rfl
  have hs2 : (toArc demE9).src = NodeId.airport "A" 0 KitType.ECONOMY := rfl
  refine ⟨rfl, by decide, ?_, by decide, by decide⟩
  intro n h1 h2
  simp only [List.zip_cons_cons, List.zip_nil_right, inflowN, outflowN,
    hd1, hd2, hs1, hs2]
  rw [if_neg (fun hh : NodeId.sink = n => h2 hh.symm),
    if_neg (fun hh : NodeId.source = n => h1 hh.symm)]
  by_cases hn : NodeId.airport "A" 0 KitType.ECONOMY = n <;> simp [hn]

theorem gC9_flows_unique (f : List ℕ)
    (hf : Feasible (mcfArcs (solverPrepare gC9)) 1 1 f) : f = [1, 1] := by
  rw [gC9_arcs] at hf
  obtain ⟨hlen, hcap, hcons, hsrc, hsink⟩ := hf
  cases f with
  | nil => simp at hlen
  | cons x t =>
      cases t with
      | nil => simp at hlen
      | cons y t2 =>
          cases t2 with
          | cons z t3 => simp at hlen
          | nil =>
              have hd1 : (toArc invE9).dst =
                  NodeId.airport "A" 0 KitType.ECONOMY := rfl
              have hd2 : (toArc demE9).dst = NodeId.sink := rfl
              have hs1 : (toArc invE9).src = NodeId.source := rfl
              have hs2 : (toArc demE9).src =
                  NodeId.airport "A" 0 KitType.ECONOMY := rfl
              have e1 := hcons (NodeId.airport "A" 0 KitType.ECONOMY)
                (by decide) (by decide)
              simp only [List.zip_cons_cons, List.zip_nil_right,
                inflowN, outflowN, hd1, hd2, hs1, hs2] at e1 hsink
              simp at e1 hsink
              have hx : x = 1 := by omega
              have hy : y = 1 := by omega
              rw [hx, hy]
/-- C9: raising the single demand edge of `gC9` from required quantity
1 to 2 while holding every other edge fixed (`gC9r`) makes the solver's
instance unbalanced — supply stays 1 while sink demand becomes 2 — so
the backend reports UNBALANCED and no optimal solution exists for the
raised instance; the claimed monotonicity can never be exercised.  On
the balanced base instance the unique feasible flow saturates the
demand edge at its full capacity. -/
theorem C9_raised_demand_unbalanced (res1 res2 : BackendResult)
    (sol1 sol2 : Solution)
    (h1 : MCFBackendSpec (mcfArcs (solverPrepare gC9)) 1 1 res1)
    (hok1 : mcfSolve gC9 res1 = .ok sol1)
    (h2 : MCFBackendSpec (mcfArcs (solverPrepare gC9r)) 1 2 res2)
    (hok2 : mcfSolve gC9r res2 = .ok sol2) :
    (solverPrepare gC9).edges = [invE9, demE9] ∧
    (solverPrepare gC9r).edges =
      [invE9, { demE9 with capacity := some 2 }] ∧
    demE9.edgeType = .demand ∧ demE9.capacity = some 1 ∧
    sol1.status = .OPTIMAL ∧
    sol1.flow = [(invE9, some 1), (demE9, some 1)] ∧
    sol2.status = .UNBALANCED := by
  have hsup9 : total_supply_of (solverPrepare gC9).edges = some 1 := by
    with_unfolding_all rfl
  have hdadj9 : demand_adjusted (solverPrepare gC9).edges = some 1 := by
    with_unfolding_all rfl
  have hsup9r : total_supply_of (solverPrepare gC9r).edges = some 1 := by
    with_unfolding_all rfl
  have hdadj9r : demand_adjusted (solverPrepare gC9r).edges = some 2 := by
    with_unfolding_all rfl
  obtain ⟨hopt1, hfr1, _, _⟩ := h1.2.2 rfl [1, 1] gC9_feasible
  have hflows : res1.flows = [1, 1] := gC9_flows_unique res1.flows hfr1
  unfold mcfSolve at hok1
  dsimp only at hok1
  rw [hsup9, hdadj9] at hok1
  dsimp only at hok1
  rw [hopt1] at hok1
  dsimp only at hok1
  have hs1 := Except.ok.inj hok1
  subst hs1
  have hub2 : res2.bstatus = .UNBALANCED := h2.1 (by norm_num)
  unfold mcfSolve at hok2
  dsimp only at hok2
  rw [hsup9r, hdadj9r] at hok2
  dsimp only at hok2
  rw [hub2] at hok2
  dsimp only at hok2
  have hs2 := Except.ok.inj hok2
  subst hs2
  refine ⟨gC9_prepared_edges, gC9r_prepared_edges, rfl, rfl, rfl, ?_, rfl⟩
  dsimp only
  rw [gC9_prepared_edges, hflows]
  rfl

/-- Backend answer for the base instance: the unique feasible flow. -/
def res1w : BackendResult :=
  { bstatus := .OPTIMAL, flows := [1, 1],
    optCost := flowCost ((mcfArcs (solverPrepare gC9)).zip [1, 1]) }

theorem res1w_spec : MCFBackendSpec (mcfArcs (solverPrepare gC9)) 1 1 res1w := by
  refine ⟨fun h => absurd rfl h,
    fun _ h => absurd ⟨_, gC9_feasible⟩ h, ?_⟩
  intro _ f hf
  refine ⟨rfl, gC9_feasible, ?_, rfl⟩
  intro f2 hf2
  rw [gC9_flows_unique f2 hf2]
  exact le_refl _

/-- Backend answer for the raised, unbalanced instance. -/
def res2w : BackendResult :=
  { bstatus := .UNBALANCED, flows := [], optCost := 0 }

theorem res2w_spec :
    MCFBackendSpec (mcfArcs (solverPrepare gC9r)) 1 2 res2w :=
  ⟨fun _ => rfl, fun h => absurd h (by norm_num),
    fun h => absurd h (by norm_num)⟩

/-- The solution `mcfSolve` produces on the base instance. -/
def sol1w : Solution :=
  { status := .OPTIMAL, total_cost := ((res1w.optCost : ℚ)) / 1000,
    kit_loads := [], purchases := [],
    flow := [(invE9, some 1), (demE9, some 1)] }

/-- The solution `mcfSolve` produces on the raised instance. -/
def sol2w : Solution := { status := .UNBALANCED }

theorem C9_raised_demand_unbalanced_witness :
    (solverPrepare gC9).edges = [invE9, demE9] ∧
    (solverPrepare gC9r).edges =
      [invE9, { demE9 with capacity := some 2 }] ∧
    demE9.edgeType = .demand ∧ demE9.capacity = some 1 ∧
    sol1w.status = .OPTIMAL ∧
    sol1w.flow = [(invE9, some 1), (demE9, some 1)] ∧
    sol2w.status = .UNBALANCED :=
  C9_raised_demand_unbalanced res1w res2w sol1w sol2w res1w_spec
    (by with_unfolding_all rfl) res2w_spec (by with_unfolding_all rfl)
